import Mathlib

/-!
# gref backends: the relational and the graph backend of the canonical identity registry

A shallow embedding of `mysql/mysql.go` and `neo/neo.go`.

* The backend operations are translated once, over an abstract driver: a record of
  functions standing for the calls the Go code makes on `database/sql` and `sqlx`
  (`Prepare`, `Query`, `QueryRow(..).Scan`, `NamedExec`), each returning what the Go
  call returns and the store it leaves behind.
* Query texts are built in Go with `fmt.Sprintf`; here a query is the template that
  was used together with the strings substituted into it.
* Two engines implement the driver: a tabular store and a property graph. They are
  used where a statement speaks about what is stored. The Go code escapes nothing it
  splices, so an engine runs a statement on its store only when every spliced string
  stands for itself in the text; its answers to any other statement are a parameter.
* A Go runtime panic is an explicit outcome, `Outcome.panics`.
-/

namespace Gref

/-! ## Go values shared by both backends -/

/-- Status codes of `net/http` used by the backends. -/
abbrev StatusOK : Nat := 200
/-- The code `http.StatusCreated`. -/
abbrev StatusCreated : Nat := 201
/-- The code `http.StatusNoContent`. -/
abbrev StatusNoContent : Nat := 204
/-- The code `http.StatusNotFound`. -/
abbrev StatusNotFound : Nat := 404
/-- The code `http.StatusConflict`. -/
abbrev StatusConflict : Nat := 409
/-- The code `http.StatusInternalServerError`. -/
abbrev StatusInternalServerError : Nat := 500

/-- Go `error` values met by the backends: the sentinel `sql.ErrNoRows`, an error
raised by the storage layer, and an error built with `errors.New`. A nil error is
`none : Option GoError`. -/
inductive GoError where
  | ErrNoRows
  | storage (msg : String)
  | New (msg : String)
deriving DecidableEq, Repr

/-- Modelled from the spec: the struct `models.Mapping`, declared in another
repository; one fact linking a source-local identifier to a canonical identifier. -/
structure Mapping where
  Canonical : String
  Source : String
  SourceID : String
  Object : String
  ObjectType : String
deriving DecidableEq, Repr

/-- What a Go function does when called: it returns, or the runtime panics. -/
inductive Outcome (α : Type) where
  | returns (a : α)
  | panics (msg : String)
deriving Repr

/-- A Go `map[string]string`: a finite partial function on keys. -/
abbrev Record := String → Option String

/-- The map made by `make(map[string]string)`. -/
def Record.empty : Record := fun _ => none

/-- Assignment `m[k] = v`. -/
def Record.set (m : Record) (k v : String) : Record :=
  fun x => if x = k then some v else m x

/-- Indexing `m[k]`, which yields the zero value for an absent key. -/
def Record.index (m : Record) (k : String) : String :=
  (m k).getD ""

/-! ## neo.go: result normalizer and query execution -/

/-- One `rows.Next()` that returned true, followed by `rows.Scan`: the error, or the
raw cells of the row, a nil `sql.RawBytes` being `none`. -/
abbrev ScanOutcome := Except GoError (List (Option String))

/-- A `*sql.Rows` as the driver delivers it. -/
structure Rows where
  Columns : Except GoError (List String)
  scans : List ScanOutcome

/-- The call `rows.Scan(scanArgs...)` with `n` destinations: `database/sql` refuses a
row whose number of cells differs from the number of destinations. -/
def Scan (n : Nat) (r : ScanOutcome) : ScanOutcome :=
  match r with
  | .error e => .error e
  | .ok cells =>
    if cells.length = n then .ok cells
    else .error (.storage "sql: wrong number of destination arguments in Scan")

/-- The string stored for one cell: the sentinel for a nil `sql.RawBytes`, else
`string(col)`. -/
def cellValue (col : Option String) : String :=
  match col with
  | none => "NULL"
  | some b => b

/-- Inner loop of `packageData`: `newRow[columns[i]] = value` for every cell. -/
def fillRow : List String → List (Option String) → Record → Record
  | c :: cs, col :: cols, newRow => fillRow cs cols (newRow.set c (cellValue col))
  | _, _, newRow => newRow

/-- Outer loop of `packageData`: one record per fetched row; a failed scan returns nil. -/
def fetchRows (columns : List String) : List ScanOutcome → List Record → List Record
  | [], data => data
  | r :: rest, data =>
    match Scan columns.length r with
    | .error _ => []
    | .ok values => fetchRows columns rest (data ++ [fillRow columns values Record.empty])

/-- The function `packageData`; a nil slice is the empty list. -/
def packageData (rows : Rows) : List Record :=
  match rows.Columns with
  | .error _ => []
  | .ok columns =>
    if columns.length = 0 then []
    else fetchRows columns rows.scans []

/-- The calls `graphExec` makes on the connection, for a store of type `σ` and
queries of type `Q`: `db.Prepare` (its error) and `smt.Query` (error or row set, and
the store afterwards). -/
structure GraphDriver (σ Q : Type) where
  Prepare : σ → Q → Option GoError
  Query : σ → Q → Except GoError Rows × σ

/-- Loop of `graphExec` over the remaining queries, `vals` holding the last result. -/
def graphExecLoop {σ Q : Type} (d : GraphDriver σ Q) :
    σ → List Record → List Q → Except GoError (List Record) × σ
  | s, vals, [] => (.ok vals, s)
  | s, _, query :: rest =>
    match d.Prepare s query with
    | some err => (.error err, s)
    | none =>
      match d.Query s query with
      | (.error err, s1) => (.error err, s1)
      | (.ok rows, s1) => graphExecLoop d s1 (packageData rows) rest

/-- The function `graphExec`. -/
def graphExec {σ Q : Type} (d : GraphDriver σ Q) (s : σ) (queries : List Q) :
    Except GoError (List Record) × σ :=
  graphExecLoop d s [] queries

/-- The Cypher texts of neo.go, each template with the strings substituted into it:
* `mergeCreate`: merge (o:T)-[r:KNOWS (id sid)]->(s:source (name S))
  on create set o.canonical=c return o.canonical
* `mergeUpdate`: merge (o:T (canonical c)) merge (s:source (name S))
  merge (o)-[r:KNOWS (id sid)]->(s)
* `matchSource`: match (o:T)-[r:KNOWS (id sid)]->(s:source (name S)) return o.canonical
* `matchCanonical`: match (c:T (canonical c))-[i:KNOWS]->(s:source)
  return c.canonical, s.name, i.id -/
inductive Cypher where
  | mergeCreate (objectType sourceID source canonical : String)
  | mergeUpdate (objectType canonical source sourceID : String)
  | matchSource (objectType sourceID source : String)
  | matchCanonical (objectType canonical : String)
deriving DecidableEq, Repr

/-- What `MapCreate` hands back: the status code, the error, and the mapping behind
the pointer it was given. -/
structure CreateResult where
  mapping : Mapping
  code : Nat
  err : Option GoError
deriving DecidableEq, Repr

/-- What `MapUpdate` and `SourceInfo` hand back, with the mapping behind the pointer. -/
structure InfoResult where
  mapping : Mapping
  value : String
  code : Nat
  err : Option GoError
deriving DecidableEq, Repr

/-- What `CanonicalInfo` hands back. -/
structure ListResult where
  mappings : List Mapping
  code : Nat
  err : Option GoError
deriving DecidableEq, Repr

namespace NeoBackend

/-- The method `NeoBackend.MapCreate`. -/
def MapCreate {σ : Type} (d : GraphDriver σ Cypher) (s : σ) (mapping : Mapping) :
    Outcome CreateResult × σ :=
  let q := Cypher.mergeCreate mapping.ObjectType mapping.SourceID mapping.Source
    mapping.Canonical
  match graphExec d s [q] with
  | (.error err, s1) =>
    (.returns { mapping := mapping, code := StatusInternalServerError, err := some err }, s1)
  | (.ok vals, s1) =>
    match vals with
    | [] => (.panics "runtime error: index out of range [0] with length 0", s1)
    | first :: _ =>
      let v := first.index "o.canonical"
      if v ≠ mapping.Canonical then
        (.returns { mapping := { mapping with Canonical := v }, code := StatusConflict,
                    err := none }, s1)
      else
        (.returns { mapping := mapping, code := StatusCreated, err := none }, s1)

/-- The method `NeoBackend.MapUpdate`. -/
def MapUpdate {σ : Type} (d : GraphDriver σ Cypher) (s : σ) (mapping : Mapping) :
    InfoResult × σ :=
  let q := Cypher.mergeUpdate mapping.ObjectType mapping.Canonical mapping.Source
    mapping.SourceID
  match graphExec d s [q] with
  | (.error err, s1) =>
    ({ mapping := mapping, value := "", code := StatusInternalServerError, err := some err }, s1)
  | (.ok _, s1) =>
    ({ mapping := mapping, value := "", code := StatusNoContent, err := none }, s1)

/-- The method `NeoBackend.SourceInfo`. -/
def SourceInfo {σ : Type} (d : GraphDriver σ Cypher) (s : σ) (mapping : Mapping) :
    InfoResult × σ :=
  let q := Cypher.matchSource mapping.ObjectType mapping.SourceID mapping.Source
  match graphExec d s [q] with
  | (.error err, s1) =>
    ({ mapping := mapping, value := "", code := StatusInternalServerError, err := some err }, s1)
  | (.ok vals, s1) =>
    match vals with
    | [] =>
      ({ mapping := mapping, value := "resource not found", code := StatusNotFound,
         err := some (.New "resource not found") }, s1)
    | first :: _ =>
      let v := first.index "o.canonical"
      let mapping1 := { mapping with Canonical := v, Object := mapping.Object ++ "/" ++ v }
      ({ mapping := mapping1, value := mapping1.Canonical, code := StatusOK, err := none }, s1)

/-- The method `NeoBackend.CanonicalInfo`; `ObjectURL` stands for the method
`Mapping.ObjectURL` of the models package, which is declared in another repository. -/
def CanonicalInfo {σ : Type} (ObjectURL : Mapping → String → String)
    (d : GraphDriver σ Cypher) (s : σ) (mapping : Mapping) (baseURL : String) :
    ListResult × σ :=
  let q := Cypher.matchCanonical mapping.ObjectType mapping.Canonical
  match graphExec d s [q] with
  | (.error err, s1) =>
    ({ mappings := [], code := StatusInternalServerError, err := some err }, s1)
  | (.ok vals, s1) =>
    let mappings := vals.map fun row =>
      let m : Mapping :=
        { Canonical := row.index "c.canonical", Source := row.index "s.name",
          SourceID := row.index "i.id", Object := "", ObjectType := mapping.ObjectType }
      { m with Object := ObjectURL m baseURL }
    ({ mappings := mappings, code := StatusOK, err := none }, s1)

end NeoBackend

/-! ## mysql.go -/

/-- The SQL texts of mysql.go, each template with the strings substituted into it:
* `select column table whereColumn value`: SELECT column FROM table WHERE
  whereColumn = value (value quoted); `MapCreate` and `SourceInfo` select id by a
  source column, `CanonicalInfo` selects a source column by id
* `insert table column`: INSERT INTO table (id, column) VALUES (:canonical, :source_id)
* `update table column canonical`: UPDATE table SET column = :source_id WHERE
  id = canonical (canonical quoted) -/
inductive SQL where
  | select (column table whereColumn value : String)
  | insert (table column : String)
  | update (table column canonical : String)
deriving DecidableEq, Repr

/-- The calls mysql.go makes on the connection, for a store of type `σ`:
`db.QueryRow(q).Scan(&dest)` with one string destination (the error, or the string
written to the destination), `db.Query(q)` (its error) and `db.NamedExec(q, mapping)`
(its error); each with the store afterwards. -/
structure SQLDriver (σ : Type) where
  QueryRowScan : σ → SQL → Except GoError String × σ
  Query : σ → SQL → Option GoError × σ
  NamedExec : σ → SQL → Mapping → Option GoError × σ

/-- The package variable `sources`, as filled by `init`. -/
def sources : List String := ["salesforce", "ezpublish", "zuora", "gluu"]

/-- Modelled from the spec: the constructor `models.NewMapping`, declared in another
repository: it stores its arguments, and the Object field is the URL derived by
`ObjectURL` from the base URL. -/
def NewMapping (ObjectURL : Mapping → String → String)
    (canonical source sourceID object objectType baseURL : String) : Mapping :=
  let m : Mapping :=
    { Canonical := canonical, Source := source, SourceID := sourceID, Object := object,
      ObjectType := objectType }
  { m with Object := ObjectURL m baseURL }

/-- The string left in a destination that was declared empty before `Scan`. -/
def scanned (r : Except GoError String) : String :=
  match r with
  | .ok v => v
  | .error _ => ""

/-- The error returned by `Scan`. -/
def scanErr (r : Except GoError String) : Option GoError :=
  match r with
  | .ok _ => none
  | .error e => some e

namespace SQLBackend

/-- The method `SQLBackend.MapCreate`. -/
def MapCreate {σ : Type} (d : SQLDriver σ) (s : σ) (mapping : Mapping) : CreateResult × σ :=
  let mapCheck := SQL.select "id" mapping.ObjectType mapping.Source mapping.SourceID
  match d.QueryRowScan s mapCheck with
  | (r, s1) =>
    let canonical := scanned r
    let err := scanErr r
    if err ≠ some GoError.ErrNoRows ∧ err ≠ none then
      ({ mapping := mapping, code := StatusInternalServerError, err := err }, s1)
    else if canonical ≠ "" then
      ({ mapping := mapping, code := StatusConflict,
         err := some (.New "The mapping already exists") }, s1)
    else
      let mapInsert := SQL.insert mapping.ObjectType mapping.Source
      match d.NamedExec s1 mapInsert mapping with
      | (some err2, s2) =>
        ({ mapping := mapping, code := StatusInternalServerError, err := some err2 }, s2)
      | (none, s2) =>
        ({ mapping := mapping, code := StatusCreated, err := none }, s2)

/-- The method `SQLBackend.MapUpdate`. -/
def MapUpdate {σ : Type} (d : SQLDriver σ) (s : σ) (mapping : Mapping) : InfoResult × σ :=
  let mapUpdate := SQL.update mapping.ObjectType mapping.Source mapping.Canonical
  match d.NamedExec s mapUpdate mapping with
  | (some err, s1) =>
    ({ mapping := mapping, value := "error updating mapping",
       code := StatusInternalServerError, err := some err }, s1)
  | (none, s1) =>
    ({ mapping := mapping, value := "mapping successfully updated", code := StatusOK,
       err := none }, s1)

/-- The method `SQLBackend.SourceInfo`; the result of the first `db.Query` is dropped. -/
def SourceInfo {σ : Type} (d : SQLDriver σ) (s : σ) (mapping : Mapping) : InfoResult × σ :=
  let sourceInfo := SQL.select "id" mapping.ObjectType mapping.Source mapping.SourceID
  match d.Query s sourceInfo with
  | (_, s0) =>
    match d.QueryRowScan s0 sourceInfo with
    | (r, s1) =>
      let canonical := scanned r
      let err := scanErr r
      if err = some GoError.ErrNoRows then
        ({ mapping := mapping, value := "error retrieving canonical identifier",
           code := StatusNotFound, err := err }, s1)
      else if err ≠ none then
        ({ mapping := mapping, value := "error retrieving canonical identifier",
           code := StatusInternalServerError, err := err }, s1)
      else
        ({ mapping := mapping, value := canonical, code := StatusOK, err := none }, s1)

/-- Loop of `SQLBackend.CanonicalInfo` over the remaining source names; the error of
`row.Scan` is not looked at. -/
def canonicalLoop {σ : Type} (ObjectURL : Mapping → String → String) (d : SQLDriver σ)
    (mapping : Mapping) (baseURL : String) : σ → List Mapping → List String → List Mapping × σ
  | s, mappings, [] => (mappings, s)
  | s, mappings, source :: rest =>
    let canonicalInfo := SQL.select source mapping.ObjectType "id" mapping.Canonical
    match d.QueryRowScan s canonicalInfo with
    | (r, s1) =>
      let sourceID := scanned r
      if sourceID ≠ "" then
        canonicalLoop ObjectURL d mapping baseURL s1
          (mappings ++ [NewMapping ObjectURL mapping.Canonical source sourceID mapping.Object
            mapping.ObjectType baseURL]) rest
      else
        canonicalLoop ObjectURL d mapping baseURL s1 mappings rest

/-- The method `SQLBackend.CanonicalInfo`. -/
def CanonicalInfo {σ : Type} (ObjectURL : Mapping → String → String) (d : SQLDriver σ)
    (s : σ) (mapping : Mapping) (baseURL : String) : ListResult × σ :=
  match canonicalLoop ObjectURL d mapping baseURL s [] sources with
  | (mappings, s1) => ({ mappings := mappings, code := StatusOK, err := none }, s1)

end SQLBackend

/-! ## Text spliced into a statement

The Go code writes object type, source and ids into the statement text with
`fmt.Sprintf`, the ids between quotes, and escapes nothing. Whether a string stands
for itself there depends on the grammar of the engine (a quote ends a literal, a
reserved word is no identifier) and, for a statement passed through sqlx, on its
named parameters (a colon starts one). That grammar is not part of the repository:
what an engine reads unchanged is taken as a parameter, a `Reader`. An engine below
runs a statement on its store when the reader vouches for every string spliced into
it; its answers to any other statement are a second parameter, and every theorem
holds whatever the reader and these answers are. -/

/-- What an engine reads unchanged from a statement text: `name s` says that `s`,
written bare, is read as the identifier `s`, and `value s` that `s`, written between
quotes, is read as the string `s`. -/
structure Reader where
  name : String → Bool
  value : String → Bool

/-- A column name in a statement: the name id, which the templates themselves write,
or a name the reader vouches for. -/
def Reader.column (rd : Reader) (s : String) : Bool :=
  decide (s = "id") || rd.name s

/-- A character that stands for itself between quotes. -/
def plainChar (c : Char) : Bool :=
  c.isAlphanum || c == '-' || c == '_'

/-- A string of letters, digits, hyphens and underscores. -/
def plainValue (s : String) : Bool :=
  s.data.all plainChar

/-- The statement text is the one the template intends: the reader vouches for every
string spliced into it. The values of :canonical and :source_id are bound, not
spliced. -/
def SQL.plain (rd : Reader) : SQL → Bool
  | .select column table whereColumn value =>
    rd.column column && rd.name table && rd.column whereColumn && rd.value value
  | .insert table column => rd.name table && rd.column column
  | .update table column canonical => rd.name table && rd.column column && rd.value canonical

/-- The query text is the one the template intends. -/
def Cypher.plain (rd : Reader) : Cypher → Bool
  | .mergeCreate objectType sourceID source canonical =>
    rd.name objectType && rd.value sourceID && rd.value source && rd.value canonical
  | .mergeUpdate objectType canonical source sourceID =>
    rd.name objectType && rd.value canonical && rd.value source && rd.value sourceID
  | .matchSource objectType sourceID source =>
    rd.name objectType && rd.value sourceID && rd.value source
  | .matchCanonical objectType canonical => rd.name objectType && rd.value canonical

/-! ## The tabular engine

Modelled from the spec: the tables behind the relational backend, whose schema is
not part of the repository. Each object type is a table and each source a column;
which columns carry a primary key or unique index is part of the table. Strings
compare exactly, a table is read in stored order, a new row is stored last, and a
refused statement changes nothing. -/

/-- A stored row: column name to value, `none` being SQL NULL. -/
abbrev SQLRow := String → Option String

/-- A table: its column names, the columns under a primary key or unique index, and
its rows. -/
structure Table where
  columns : List String
  keys : List String
  rows : List SQLRow

/-- The tables of the database by name. -/
abbrev Store := String → Option Table

/-- Row written by INSERT INTO table (id, column) VALUES (:canonical, :source_id). -/
def insertedRow (column : String) (m : Mapping) : SQLRow :=
  fun c => if c = "id" then some m.Canonical else if c = column then some m.SourceID else none

/-- Row after SET column = :source_id. -/
def updatedRow (column : String) (m : Mapping) (r : SQLRow) : SQLRow :=
  fun c => if c = column then some m.SourceID else r c

/-- One row under UPDATE .. SET column = :source_id WHERE id = canonical. -/
def updateWhere (column canonical : String) (m : Mapping) (r : SQLRow) : SQLRow :=
  if r "id" = some canonical then updatedRow column m r else r

/-- Replace one table of the store. -/
def Store.put (db : Store) (table : String) (t : Table) : Store :=
  fun n => if n = table then some t else db n

/-- A stored row carries the value `v`, not NULL, in column `k`. -/
def holdsValue (rows : List SQLRow) (k : String) (v : Option String) : Bool :=
  decide (v ≠ none) && rows.any (fun r => decide (r k = v))

/-- Two stored rows carry the same value, not NULL, in column `k`. -/
def hasDuplicate (k : String) : List SQLRow → Bool
  | [] => false
  | r :: rs => holdsValue rs k (r k) || hasDuplicate k rs

/-- The first row of SELECT column FROM table WHERE whereColumn = value, scanned into
a string; `value` is the string the engine reads between the quotes. -/
def Store.select (db : Store) (column table whereColumn value : String) :
    Except GoError String :=
  match db table with
  | none => .error (.storage "Error 1146: Table does not exist")
  | some t =>
    if column ∈ t.columns ∧ whereColumn ∈ t.columns then
      match t.rows.find? (fun r => decide (r whereColumn = some value)) with
      | none => .error .ErrNoRows
      | some r =>
        match r column with
        | none => .error (.storage "sql: Scan error: converting NULL to string is unsupported")
        | some v => .ok v
    else .error (.storage "Error 1054: Unknown column")

/-- INSERT INTO table (id, column) VALUES (:canonical, :source_id); refused when the
new row repeats a stored value in a key column. -/
def Store.insert (db : Store) (table column : String) (m : Mapping) : Option GoError × Store :=
  match db table with
  | none => (some (.storage "Error 1146: Table does not exist"), db)
  | some t =>
    if ¬ ("id" ∈ t.columns ∧ column ∈ t.columns) then
      (some (.storage "Error 1054: Unknown column"), db)
    else if column = "id" then
      (some (.storage "Error 1110: Column specified twice"), db)
    else if t.keys.any (fun k => holdsValue t.rows k (insertedRow column m k)) then
      (some (.storage "Error 1062: Duplicate entry"), db)
    else
      (none, db.put table { t with rows := t.rows ++ [insertedRow column m] })

/-- UPDATE table SET column = :source_id WHERE id = canonical, `canonical` being the
string the engine reads between the quotes; refused when `column` is a key column
and the update would leave a value in it twice. -/
def Store.update (db : Store) (table column canonical : String) (m : Mapping) :
    Option GoError × Store :=
  match db table with
  | none => (some (.storage "Error 1146: Table does not exist"), db)
  | some t =>
    if ¬ ("id" ∈ t.columns ∧ column ∈ t.columns) then
      (some (.storage "Error 1054: Unknown column"), db)
    else if column ∈ t.keys
        ∧ hasDuplicate column (t.rows.map (updateWhere column canonical m)) = true then
      (some (.storage "Error 1062: Duplicate entry"), db)
    else
      (none, db.put table { t with rows := t.rows.map (updateWhere column canonical m) })

/-- The tabular engine behind the driver interface. A statement whose text is the
intended one for the reader `rd` is run on the tables; the answers to any other
statement are those of `wild`. -/
def tableEngine (rd : Reader) (wild : SQLDriver Store) : SQLDriver Store where
  QueryRowScan := fun db q =>
    if q.plain rd then
      match q with
      | .select column table whereColumn value => (db.select column table whereColumn value, db)
      | _ => (.error (.storage "sql: statement returns no rows"), db)
    else wild.QueryRowScan db q
  Query := fun db q =>
    if q.plain rd then
      match q with
      | .select column table whereColumn value =>
        match db.select column table whereColumn value with
        | .error (.storage e) => (some (.storage e), db)
        | _ => (none, db)
      | _ => (none, db)
    else wild.Query db q
  NamedExec := fun db q m =>
    if q.plain rd then
      match q with
      | .insert table column => db.insert table column m
      | .update table column canonical => db.update table column canonical m
      | .select _ _ _ _ => (none, db)
    else wild.NamedExec db q m

/-! ## The graph engine

Modelled from the spec: the property graph behind the graph backend. Each object
type is a node label, each source a node labelled source with a name, and a KNOWS
relationship from an entity node to a source node carries the source-local id. -/

/-- A node: its label and the two properties the queries read. -/
structure Node where
  label : String
  canonical : Option String
  name : Option String
deriving DecidableEq, Repr

/-- A KNOWS relationship between two nodes, given by their positions. -/
structure Rel where
  start : Nat
  stop : Nat
  id : String
deriving DecidableEq, Repr

/-- The stored graph. -/
structure Graph where
  nodes : List Node
  rels : List Rel
deriving DecidableEq, Repr

/-- Every relationship joins stored nodes. -/
def Graph.wf (g : Graph) : Prop :=
  ∀ r ∈ g.rels, r.start < g.nodes.length ∧ r.stop < g.nodes.length

instance (g : Graph) : Decidable g.wf := by
  unfold Graph.wf; infer_instance

/-- The entity node of relationship `r` when the path
(o:T)-[r:KNOWS (id sid)]->(s:source (name S)) matches. -/
def Graph.knowsAt (g : Graph) (T sid S : String) (r : Rel) : Option Node :=
  match g.nodes[r.start]?, g.nodes[r.stop]? with
  | some o, some s =>
    if r.id = sid ∧ o.label = T ∧ s.label = "source" ∧ s.name = some S then some o else none
  | _, _ => none

/-- The entity nodes of all matches of (o:T)-[r:KNOWS (id sid)]->(s:source (name S)). -/
def Graph.knows (g : Graph) (T sid S : String) : List Node :=
  g.rels.filterMap (g.knowsAt T sid S)

/-- The merge of `MapCreate`: the o.canonical cell of every match, or, when nothing
matches, the whole path is created with o.canonical = c. -/
def Graph.upsert (g : Graph) (T sid S c : String) : List (Option String) × Graph :=
  match g.knows T sid S with
  | [] =>
    ([some c],
     { nodes := g.nodes ++ [⟨T, some c, none⟩, ⟨"source", none, some S⟩],
       rels := g.rels ++ [⟨g.nodes.length, g.nodes.length + 1, sid⟩] })
  | o :: os => ((o :: os).map (fun n => n.canonical), g)

/-- Positions of the nodes satisfying `p`; when there is none, `fresh` is stored. -/
def Graph.findOrCreate (g : Graph) (p : Node → Bool) (fresh : Node) : List Nat × Graph :=
  match (List.range g.nodes.length).filter (fun i => (g.nodes[i]?.map p).getD false) with
  | [] => ([g.nodes.length], { g with nodes := g.nodes ++ [fresh] })
  | i :: is => (i :: is, g)

/-- Merge of (o)-[r:KNOWS (id sid)]->(s) for two stored nodes. -/
def Graph.mergeRel (sid : String) (g : Graph) (os : Nat × Nat) : Graph :=
  if g.rels.any (fun r => decide (r.start = os.1 ∧ r.stop = os.2 ∧ r.id = sid)) then g
  else { g with rels := g.rels ++ [⟨os.1, os.2, sid⟩] }

/-- The three merges of `MapUpdate`. -/
def Graph.attach (g : Graph) (T c S sid : String) : Graph :=
  match g.findOrCreate (fun n => decide (n.label = T ∧ n.canonical = some c)) ⟨T, some c, none⟩ with
  | (os, g1) =>
    match g1.findOrCreate (fun n => decide (n.label = "source" ∧ n.name = some S))
        ⟨"source", none, some S⟩ with
    | (ss, g2) => (os.product ss).foldl (Graph.mergeRel sid) g2

/-- The rows of match (c:T (canonical c))-[i:KNOWS]->(s:source)
return c.canonical, s.name, i.id. -/
def Graph.linked (g : Graph) (T c : String) : List (List (Option String)) :=
  g.rels.filterMap fun r =>
    match g.nodes[r.start]?, g.nodes[r.stop]? with
    | some o, some s =>
      if o.label = T ∧ o.canonical = some c ∧ s.label = "source" then
        some [o.canonical, s.name, some r.id]
      else none
    | _, _ => none

/-- The answer of the graph to a query whose text is the intended one. -/
def Graph.run (g : Graph) : Cypher → Except GoError Rows × Graph
  | .mergeCreate T sid S c =>
    (.ok { Columns := .ok ["o.canonical"],
           scans := (g.upsert T sid S c).1.map (fun cell => .ok [cell]) },
     (g.upsert T sid S c).2)
  | .mergeUpdate T c S sid =>
    (.ok { Columns := .ok [], scans := [] }, g.attach T c S sid)
  | .matchSource T sid S =>
    (.ok { Columns := .ok ["o.canonical"],
           scans := (g.knows T sid S).map (fun o => .ok [o.canonical]) }, g)
  | .matchCanonical T c =>
    (.ok { Columns := .ok ["c.canonical", "s.name", "i.id"],
           scans := (g.linked T c).map (fun row => .ok row) }, g)

/-- The graph engine behind the driver interface. A query whose text is the intended
one for the reader `rd` is run on the graph; the answers to any other query are those
of `wild`. -/
def graphEngine (rd : Reader) (wild : GraphDriver Graph Cypher) :
    GraphDriver Graph Cypher where
  Prepare := fun g q => if q.plain rd then none else wild.Prepare g q
  Query := fun g q => if q.plain rd then g.run q else wild.Query g q

/-! ## Concrete stores and drivers used in examples -/

/-- A connection on which every row scan fails. -/
def scanFails : GraphDriver Unit Cypher where
  Prepare := fun _ _ => none
  Query := fun s _ =>
    (.ok { Columns := .ok ["o.canonical"], scans := [.error (.storage "scan failed")] }, s)

/-- A relational connection on which every row scan fails. -/
def sqlScanFails : SQLDriver Unit where
  QueryRowScan := fun s _ => (.error (.storage "scan failed"), s)
  Query := fun s _ => (none, s)
  NamedExec := fun s _ _ => (none, s)

/-- A reader for the examples: it vouches for the name person, for the names of the
known sources, and for values made of letters, digits, hyphens and underscores. -/
def plainReader : Reader where
  name := fun s => decide (s ∈ "person" :: sources)
  value := plainValue

/-- One possible answer of the tabular engine to altered statements, for the
examples, which issue intended statements only: every such statement is refused. -/
def sqlRefused : SQLDriver Store where
  QueryRowScan := fun db _ => (.error (.storage "Error 1064: syntax error"), db)
  Query := fun db _ => (some (.storage "Error 1064: syntax error"), db)
  NamedExec := fun db _ _ => (some (.storage "Error 1064: syntax error"), db)

/-- One possible answer of the graph engine to altered queries, for the examples,
which issue intended queries only: every such query is refused. -/
def cypherRefused : GraphDriver Graph Cypher where
  Prepare := fun _ _ => none
  Query := fun g _ => (.error (.storage "Neo.ClientError.Statement.InvalidSyntax"), g)

/-- The columns of the table person: id and the known sources. -/
def personColumns : List String := ["id", "salesforce", "ezpublish", "zuora", "gluu"]

/-- A store holding the table person with the given key columns and rows. -/
def personStoreKeys (keys : List String) (rows : List SQLRow) : Store :=
  fun n => if n = "person" then some ⟨personColumns, keys, rows⟩ else none

/-- A store holding the table person, with id as its only key, and the given rows. -/
def personStore (rows : List SQLRow) : Store :=
  personStoreKeys ["id"] rows

/-- A row of person with an id and its salesforce column set. -/
def salesforceRow (id sid : String) : SQLRow :=
  fun c => if c = "id" then some id else if c = "salesforce" then some sid else none

/-- A row of person with an id and no source attached. -/
def idRow (id : String) : SQLRow :=
  fun c => if c = "id" then some id else none

/-- The mapping of SF-1 in salesforce to a person with the given canonical. -/
def sf1 (canonical : String) : Mapping :=
  { Canonical := canonical, Source := "salesforce", SourceID := "SF-1", Object := "",
    ObjectType := "person" }

/-- The mapping of ZU-9 in zuora to a person with the given canonical. -/
def zu9 (canonical : String) : Mapping :=
  { Canonical := canonical, Source := "zuora", SourceID := "ZU-9", Object := "",
    ObjectType := "person" }

/-- The graph left by creating person c0 for SF-1 in salesforce on an empty graph. -/
def graphC0 : Graph :=
  { nodes := [⟨"person", some "c0", none⟩, ⟨"source", none, some "salesforce"⟩],
    rels := [⟨0, 1, "SF-1"⟩] }

/-- Column names of a two-column result. -/
def twoColumns : List String := ["o.canonical", "s.name"]

/-- Two scanned rows for `twoColumns`, the second with a nil cell. -/
def twoRows : List (List (Option String)) :=
  [[some "c0", some "salesforce"], [none, some "zuora"]]

/-! ## Predicates on the tabular store -/

/-- No stored row of the table of the mapping that matches its (Source, SourceID) carries
the empty string as id. -/
def Store.noEmptyMatch (db : Store) (m : Mapping) : Prop :=
  match db m.ObjectType with
  | none => True
  | some t => ∀ r ∈ t.rows, r m.Source = some m.SourceID → r "id" ≠ some ""

instance (db : Store) (m : Mapping) : Decidable (db.noEmptyMatch m) := by
  unfold Store.noEmptyMatch; split <;> infer_instance

/-- The column id of table `T` is under a key (the primary key of the spec). -/
def Store.idIsKey (db : Store) (T : String) : Prop :=
  match db T with
  | none => True
  | some t => "id" ∈ t.keys

instance (db : Store) (T : String) : Decidable (db.idIsKey T) := by
  unfold Store.idIsKey; split <;> infer_instance

/-- At most one canonical identifier per (Source, SourceID) pair in a table: two rows
that carry the same value in a source column carry the same id. -/
def Table.oneCanonical (t : Table) : Prop :=
  ∀ r1 ∈ t.rows, ∀ r2 ∈ t.rows, ∀ col ∈ t.columns,
    col ≠ "id" → r1 col ≠ none → r1 col = r2 col → r1 "id" = r2 "id"

instance (t : Table) : Decidable t.oneCanonical := by
  unfold Table.oneCanonical; infer_instance

/-- The invariant for object type `T`: its table, when stored, has at most one
canonical identifier per (Source, SourceID) pair. -/
def Store.oneCanonical (db : Store) (T : String) : Prop :=
  match db T with
  | none => True
  | some t => t.oneCanonical

instance (db : Store) (T : String) : Decidable (db.oneCanonical T) := by
  unfold Store.oneCanonical; split <;> infer_instance

instance : DecidableEq (Except GoError String) := fun a b =>
  match a, b with
  | .ok x, .ok y => if h : x = y then isTrue (by rw [h]) else isFalse (by intro e; cases e; exact h rfl)
  | .error x, .error y =>
    if h : x = y then isTrue (by rw [h]) else isFalse (by intro e; cases e; exact h rfl)
  | .ok _, .error _ => isFalse (by intro e; cases e)
  | .error _, .ok _ => isFalse (by intro e; cases e)

/-- The case in which `SQLBackend.MapCreate` stores a second canonical for a
(Source, SourceID) pair: the lookup reads the empty id of a stored row for the pair,
and the insert of a non-empty canonical is accepted. -/
def Store.createSplits (db : Store) (m : Mapping) : Prop :=
  db.select "id" m.ObjectType m.Source m.SourceID = .ok "" ∧
    (db.insert m.ObjectType m.Source m).1 = none ∧ m.Canonical ≠ ""

instance (db : Store) (m : Mapping) : Decidable (db.createSplits m) := by
  unfold Store.createSplits; infer_instance

/-- The case in which `SQLBackend.MapUpdate` stores a second canonical for a
(Source, SourceID) pair: the update of a source column is accepted and changes the row
with id Canonical while a row with another id carries SourceID in that column. -/
def Store.updateSplits (db : Store) (m : Mapping) : Prop :=
  (db.update m.ObjectType m.Source m.Canonical m).1 = none ∧ m.Source ≠ "id" ∧
    match db m.ObjectType with
    | none => False
    | some t =>
      (∃ r ∈ t.rows, r "id" = some m.Canonical) ∧
        ∃ r ∈ t.rows, r m.Source = some m.SourceID ∧ r "id" ≠ some m.Canonical

instance (db : Store) (m : Mapping) : Decidable (db.updateSplits m) := by
  unfold Store.updateSplits; split <;> infer_instance

/-! ## Lemmas on the result normalizer and on query execution -/

theorem graphExec_singleton {σ Q : Type} (d : GraphDriver σ Q) (s : σ) (q : Q) :
    graphExec d s [q] =
      match d.Prepare s q with
      | some err => (.error err, s)
      | none =>
        match d.Query s q with
        | (.error err, s1) => (.error err, s1)
        | (.ok rows, s1) => (.ok (packageData rows), s1) := by
  unfold graphExec graphExecLoop
  cases hp : d.Prepare s q with
  | some err => rfl
  | none =>
    simp only
    rcases hq : d.Query s q with ⟨r, s1⟩
    cases r with
    | error e => rfl
    | ok rows => simp [graphExecLoop]

theorem fillRow_not_mem (cols : List String) (cells : List (Option String)) (m : Record)
    (key : String) (h : key ∉ cols) : fillRow cols cells m key = m key := by
  induction cols generalizing cells m with
  | nil => cases cells <;> rfl
  | cons c cs ih =>
    cases cells with
    | nil => rfl
    | cons v vs =>
      simp only [List.mem_cons, not_or] at h
      rw [fillRow, ih vs _ h.2]
      simp [Record.set, h.1]

theorem fillRow_get (cols : List String) (hnd : cols.Nodup) (cells : List (Option String))
    (m : Record) (i : Nat) (c : String) (v : Option String)
    (hc : cols[i]? = some c) (hv : cells[i]? = some v) :
    fillRow cols cells m c = some (cellValue v) := by
  induction cols generalizing cells m i with
  | nil => simp at hc
  | cons c0 cs ih =>
    cases cells with
    | nil => simp at hv
    | cons v0 vs =>
      rw [List.nodup_cons] at hnd
      rw [fillRow]
      cases i with
      | zero =>
        simp only [List.getElem?_cons_zero, Option.some.injEq] at hc hv
        subst hc; subst hv
        rw [fillRow_not_mem cs vs _ _ hnd.1]
        simp [Record.set]
      | succ j =>
        simp only [List.getElem?_cons_succ] at hc hv
        exact ih hnd.2 vs _ j hc hv

theorem fetchRows_ok (cols : List String) (cells : List (List (Option String)))
    (hlen : ∀ r ∈ cells, r.length = cols.length) (data : List Record) :
    fetchRows cols (cells.map Except.ok) data
      = data ++ cells.map (fun r => fillRow cols r Record.empty) := by
  induction cells generalizing data with
  | nil => simp [fetchRows]
  | cons r rs ih =>
    have hr : r.length = cols.length := hlen r (List.mem_cons_self _ _)
    have hrs : ∀ x ∈ rs, x.length = cols.length := fun x hx => hlen x (List.mem_cons_of_mem _ hx)
    simp only [List.map_cons, fetchRows, Scan, hr, if_true]
    rw [ih hrs]
    simp

theorem packageData_ok (cols : List String) (cells : List (List (Option String)))
    (hne : cols ≠ []) (hlen : ∀ r ∈ cells, r.length = cols.length) :
    packageData ⟨.ok cols, cells.map Except.ok⟩
      = cells.map (fun r => fillRow cols r Record.empty) := by
  have h0 : cols.length ≠ 0 := by
    intro h; exact hne (List.length_eq_zero.mp h)
  simp only [packageData, h0, if_false]
  rw [fetchRows_ok cols cells hlen]
  simp

theorem fetchRows_failed (cols : List String) (scans : List ScanOutcome)
    (h : ∃ r ∈ scans, ∃ e, Scan cols.length r = .error e) (data : List Record) :
    fetchRows cols scans data = [] := by
  induction scans generalizing data with
  | nil => simp at h
  | cons r rs ih =>
    rw [fetchRows]
    cases hr : Scan cols.length r with
    | error e => rfl
    | ok values =>
      simp only
      apply ih
      obtain ⟨x, hx, e, he⟩ := h
      rcases List.mem_cons.mp hx with rfl | hx
      · rw [hr] at he; cases he
      · exact ⟨x, hx, e, he⟩

/-! ## Lemmas on the graph engine -/

/-- One intended query on the graph engine. -/
theorem graphExec_engine (rd : Reader) (wild : GraphDriver Graph Cypher) (g : Graph) (q : Cypher)
    (hq : q.plain rd = true) :
    graphExec (graphEngine rd wild) g [q] =
      match g.run q with
      | (.error err, g1) => (.error err, g1)
      | (.ok rows, g1) => (.ok (packageData rows), g1) := by
  rw [graphExec_singleton]
  simp only [graphEngine, hq, if_true]
  rcases g.run q with ⟨_ | _, _⟩ <;> rfl

theorem packageData_single_column (cells : List (Option String)) :
    packageData { Columns := .ok ["o.canonical"], scans := cells.map (fun c => .ok [c]) }
      = cells.map (fun c => fillRow ["o.canonical"] [c] Record.empty) := by
  have h := packageData_ok ["o.canonical"] (cells.map (fun c => [c])) (by simp)
    (by intro r hr; simp only [List.mem_map] at hr; obtain ⟨c, _, rfl⟩ := hr; rfl)
  simp only [List.map_map] at h
  exact h

theorem index_single_column (x : Option String) :
    Record.index (fillRow ["o.canonical"] [x] Record.empty) "o.canonical" = cellValue x := by
  simp [fillRow, Record.index, Record.set]

/-- The query of `MapCreate` is the intended one for plain strings. -/
theorem mergeCreate_plain (rd : Reader) (m : Mapping) (hT : rd.name m.ObjectType = true)
    (hS : rd.value m.Source = true) (hid : rd.value m.SourceID = true)
    (hc : rd.value m.Canonical = true) :
    (Cypher.mergeCreate m.ObjectType m.SourceID m.Source m.Canonical).plain rd = true := by
  simp [Cypher.plain, hT, hS, hid, hc]

/-- The method `NeoBackend.MapCreate` on the graph engine. -/
theorem neo_MapCreate_engine (rd : Reader) (wild : GraphDriver Graph Cypher) (g : Graph) (m : Mapping)
    (hT : rd.name m.ObjectType = true) (hS : rd.value m.Source = true)
    (hid : rd.value m.SourceID = true) (hc : rd.value m.Canonical = true)
    (x : Option String) (xs : List (Option String))
    (h : (g.upsert m.ObjectType m.SourceID m.Source m.Canonical).1 = x :: xs) :
    NeoBackend.MapCreate (graphEngine rd wild) g m =
      (.returns { mapping := { m with Canonical := cellValue x },
                  code := if cellValue x = m.Canonical then StatusCreated else StatusConflict,
                  err := none },
       (g.upsert m.ObjectType m.SourceID m.Source m.Canonical).2) := by
  simp only [NeoBackend.MapCreate]
  rw [graphExec_engine rd wild g _ (mergeCreate_plain rd m hT hS hid hc)]
  simp only [Graph.run]
  rw [packageData_single_column, h]
  simp only [List.map_cons, index_single_column]
  by_cases hv : cellValue x = m.Canonical
  · simp only [hv, ne_eq, not_true_eq_false, if_false, if_true]
  · simp only [hv, ne_eq, not_false_eq_true, if_true, if_false]

/-- The method `NeoBackend.SourceInfo` on the graph engine, when a path matches. -/
theorem neo_SourceInfo_engine (rd : Reader) (wild : GraphDriver Graph Cypher) (g : Graph) (m : Mapping)
    (hT : rd.name m.ObjectType = true) (hS : rd.value m.Source = true)
    (hid : rd.value m.SourceID = true) (o : Node) (os : List Node)
    (h : g.knows m.ObjectType m.SourceID m.Source = o :: os) :
    NeoBackend.SourceInfo (graphEngine rd wild) g m =
      ({ mapping := { m with Canonical := cellValue o.canonical,
                             Object := m.Object ++ "/" ++ cellValue o.canonical },
         value := cellValue o.canonical, code := StatusOK, err := none }, g) := by
  simp only [NeoBackend.SourceInfo]
  rw [graphExec_engine rd wild g _ (by simp [Cypher.plain, hT, hS, hid])]
  simp only [Graph.run]
  have hp := packageData_single_column ((g.knows m.ObjectType m.SourceID m.Source).map
    (fun o => o.canonical))
  simp only [List.map_map] at hp
  have hfun : ((fun c => (Except.ok [c] : ScanOutcome)) ∘ fun (o : Node) => o.canonical)
      = fun o => Except.ok [o.canonical] := rfl
  rw [hfun] at hp
  rw [hp, h]
  simp only [List.map_cons, Function.comp, index_single_column]

theorem getElem?_append_two_fst {α : Type} (l : List α) (a b : α) :
    (l ++ [a, b])[l.length]? = some a := by
  rw [List.getElem?_append_right (Nat.le_refl _)]
  simp

theorem getElem?_append_two_snd {α : Type} (l : List α) (a b : α) :
    (l ++ [a, b])[l.length + 1]? = some b := by
  rw [List.getElem?_append_right (Nat.le_succ _)]
  simp

theorem upsert_cells_ne_nil (g : Graph) (T sid S c : String) :
    ∃ x xs, (g.upsert T sid S c).1 = x :: xs := by
  unfold Graph.upsert
  cases g.knows T sid S with
  | nil => exact ⟨_, _, rfl⟩
  | cons o os => exact ⟨_, _, rfl⟩

/-- After the merge of `MapCreate` the matches of the path carry the returned cells. -/
theorem knows_after_upsert (g : Graph) (hwf : g.wf) (T sid S c : String) :
    ((g.upsert T sid S c).2.knows T sid S).map (fun n => n.canonical)
      = (g.upsert T sid S c).1 := by
  unfold Graph.upsert
  cases hk : g.knows T sid S with
  | nil =>
    simp only
    have hold : g.rels.filterMap (Graph.knowsAt
        { nodes := g.nodes ++ [⟨T, some c, none⟩, ⟨"source", none, some S⟩],
          rels := g.rels ++ [⟨g.nodes.length, g.nodes.length + 1, sid⟩] } T sid S) = [] := by
      rw [← hk, Graph.knows]
      apply List.filterMap_congr
      intro r hr
      have h := hwf r hr
      simp only [Graph.knowsAt, List.getElem?_append_left h.1, List.getElem?_append_left h.2]
    have hnew : Graph.knowsAt
        { nodes := g.nodes ++ [⟨T, some c, none⟩, ⟨"source", none, some S⟩],
          rels := g.rels ++ [⟨g.nodes.length, g.nodes.length + 1, sid⟩] } T sid S
        ⟨g.nodes.length, g.nodes.length + 1, sid⟩ = some ⟨T, some c, none⟩ := by
      simp only [Graph.knowsAt, getElem?_append_two_fst, getElem?_append_two_snd]
      simp
    simp only [Graph.knows, List.filterMap_append, hold, List.nil_append]
    simp only [List.filterMap_cons, hnew, List.filterMap_nil, List.map_cons, List.map_nil]
  | cons o os =>
    simp only [hk]

/-- A second merge of `MapCreate` for the same path returns the same cells and leaves
the graph as it is. -/
theorem upsert_again (g : Graph) (hwf : g.wf) (T sid S c c2 : String) :
    (g.upsert T sid S c).2.upsert T sid S c2 = ((g.upsert T sid S c).1, (g.upsert T sid S c).2) := by
  have hk := knows_after_upsert g hwf T sid S c
  obtain ⟨x, xs, hx⟩ := upsert_cells_ne_nil g T sid S c
  rw [hx] at hk
  cases hk2 : (g.upsert T sid S c).2.knows T sid S with
  | nil => rw [hk2] at hk; simp at hk
  | cons o os =>
    rw [Graph.upsert.eq_1 (g.upsert T sid S c).2]
    simp only [hk2]
    rw [hk2] at hk
    rw [hx, ← hk]
/-! ## Lemmas on the tabular engine -/

theorem Reader.column_id (rd : Reader) : rd.column "id" = true := by
  simp [Reader.column]

theorem Reader.column_of_name (rd : Reader) (s : String) (h : rd.name s = true) :
    rd.column s = true := by
  simp [Reader.column, h]

theorem Store.put_same (db : Store) (T : String) (t : Table) : (db.put T t) T = some t := by
  simp [Store.put]

theorem Store.put_other (db : Store) (T T2 : String) (t : Table) (h : T2 ≠ T) :
    (db.put T t) T2 = db T2 := by
  simp [Store.put, h]

/-- The method `SQLBackend.MapCreate` on the tabular engine, by the outcome of the
lookup. -/
theorem sql_MapCreate_engine (rd : Reader) (wild : SQLDriver Store) (db : Store) (m : Mapping)
    (hT : rd.name m.ObjectType = true) (hS : rd.name m.Source = true)
    (hid : rd.value m.SourceID = true) :
    SQLBackend.MapCreate (tableEngine rd wild) db m =
      match db.select "id" m.ObjectType m.Source m.SourceID with
      | .error (.storage e) =>
        ({ mapping := m, code := StatusInternalServerError, err := some (.storage e) }, db)
      | .error (.New e) =>
        ({ mapping := m, code := StatusInternalServerError, err := some (.New e) }, db)
      | .ok v =>
        if v ≠ "" then
          ({ mapping := m, code := StatusConflict,
             err := some (.New "The mapping already exists") }, db)
        else
          match db.insert m.ObjectType m.Source m with
          | (some err2, s2) =>
            ({ mapping := m, code := StatusInternalServerError, err := some err2 }, s2)
          | (none, s2) => ({ mapping := m, code := StatusCreated, err := none }, s2)
      | .error .ErrNoRows =>
        match db.insert m.ObjectType m.Source m with
        | (some err2, s2) =>
          ({ mapping := m, code := StatusInternalServerError, err := some err2 }, s2)
        | (none, s2) => ({ mapping := m, code := StatusCreated, err := none }, s2) := by
  simp only [SQLBackend.MapCreate, tableEngine, SQL.plain, hT, Reader.column_of_name rd _ hS, hid, Reader.column_id,
    Bool.and_self, if_true]
  cases hsel : db.select "id" m.ObjectType m.Source m.SourceID with
  | error e =>
    cases e with
    | ErrNoRows =>
      simp only [scanErr, scanned, ne_eq, not_true_eq_false, false_and, if_false]
      rcases db.insert m.ObjectType m.Source m with ⟨_ | e, s2⟩ <;> rfl
    | storage msg => simp [scanErr, scanned]
    | New msg => simp [scanErr, scanned]
  | ok v =>
    by_cases hv : v = ""
    · simp only [scanErr, scanned, hv, ne_eq, not_true_eq_false, and_false, if_false]
      rcases db.insert m.ObjectType m.Source m with ⟨_ | e, s2⟩ <;> rfl
    · simp [scanErr, scanned, hv]

/-- An accepted insert on the tabular engine. -/
theorem insert_ok (db : Store) (T S : String) (m : Mapping)
    (h : (db.insert T S m).1 = none) :
    ∃ t, db T = some t ∧ "id" ∈ t.columns ∧ S ∈ t.columns ∧ S ≠ "id" ∧
      (∀ k ∈ t.keys, holdsValue t.rows k (insertedRow S m k) = false) ∧
      (db.insert T S m).2 = db.put T { t with rows := t.rows ++ [insertedRow S m] } := by
  unfold Store.insert at h ⊢
  cases ht : db T with
  | none => simp [ht] at h
  | some t =>
    simp only [ht] at h ⊢
    by_cases hcols : "id" ∈ t.columns ∧ S ∈ t.columns
    · by_cases hid : S = "id"
      · simp [hcols, hid] at h
      · by_cases hdup : t.keys.any (fun k => holdsValue t.rows k (insertedRow S m k)) = true
        · simp [hcols, hid, hdup] at h
        · refine ⟨t, rfl, hcols.1, hcols.2, hid, ?_, ?_⟩
          · intro k hk
            by_contra hEq
            apply hdup
            rw [List.any_eq_true]
            exact ⟨k, hk, by simpa using hEq⟩
          · simp [hcols, hid, hdup]
    · simp [hcols] at h

/-- When id is a key, an accepted insert stores an id that no row carried. -/
theorem insert_fresh (t : Table) (S : String) (m : Mapping) (hkey : "id" ∈ t.keys)
    (h : ∀ k ∈ t.keys, holdsValue t.rows k (insertedRow S m k) = false) :
    ∀ r ∈ t.rows, r "id" ≠ some m.Canonical := by
  intro r hr hEq
  have h0 := h "id" hkey
  simp only [holdsValue, insertedRow, if_true, ne_eq, not_false_eq_true, decide_True,
    Bool.true_and, reduceCtorEq] at h0
  have : t.rows.any (fun r => decide (r "id" = some m.Canonical)) = true := by
    rw [List.any_eq_true]
    exact ⟨r, hr, by simp [hEq]⟩
  rw [this] at h0
  cases h0

/-- A refused insert leaves the store as it was. -/
theorem insert_failed (db : Store) (T S : String) (m : Mapping) (e : GoError)
    (h : (db.insert T S m).1 = some e) : (db.insert T S m).2 = db := by
  unfold Store.insert at h ⊢
  cases ht : db T with
  | none => rfl
  | some t =>
    simp only [ht] at h ⊢
    split
    · rfl
    · split
      · rfl
      · split
        · rfl
        · rename_i h1 h2 h3
          rw [if_neg h1, if_neg h2, if_neg h3] at h
          simp at h

/-- The lookup on a stored table with both columns. -/
theorem select_stored (db : Store) (T col w v : String) (t : Table) (ht : db T = some t)
    (hcol : col ∈ t.columns) (hw : w ∈ t.columns) :
    db.select col T w v =
      match t.rows.find? (fun r => decide (r w = some v)) with
      | none => .error .ErrNoRows
      | some r =>
        match r col with
        | none => .error (.storage "sql: Scan error: converting NULL to string is unsupported")
        | some x => .ok x := by
  simp [Store.select, ht, hcol, hw]

/-- The lookup answers ErrNoRows only when no stored row matches. -/
theorem select_no_rows (db : Store) (T col w v : String)
    (h : db.select col T w v = .error .ErrNoRows) :
    ∃ t, db T = some t ∧ col ∈ t.columns ∧ w ∈ t.columns ∧
      ∀ r ∈ t.rows, r w ≠ some v := by
  unfold Store.select at h
  cases ht : db T with
  | none => simp [ht] at h
  | some t =>
    simp only [ht] at h
    by_cases hcols : col ∈ t.columns ∧ w ∈ t.columns
    · simp only [hcols, and_self, if_true] at h
      refine ⟨t, rfl, hcols.1, hcols.2, ?_⟩
      cases hf : t.rows.find? (fun r => decide (r w = some v)) with
      | none =>
        intro r hr hEq
        have := List.find?_eq_none.mp hf r hr
        simp [hEq] at this
      | some r =>
        rw [hf] at h
        cases hr : r col with
        | none => simp [hr] at h
        | some x => simp [hr] at h
    · simp [hcols] at h

/-- The lookup answers a string only from the first stored row that matches. -/
theorem select_ok (db : Store) (T col w v x : String) (h : db.select col T w v = .ok x) :
    ∃ t, db T = some t ∧ ∃ r, t.rows.find? (fun r => decide (r w = some v)) = some r ∧
      r ∈ t.rows ∧ r w = some v ∧ r col = some x := by
  unfold Store.select at h
  cases ht : db T with
  | none => simp [ht] at h
  | some t =>
    simp only [ht] at h
    by_cases hcols : col ∈ t.columns ∧ w ∈ t.columns
    · simp only [hcols, and_self, if_true] at h
      refine ⟨t, rfl, ?_⟩
      cases hf : t.rows.find? (fun r => decide (r w = some v)) with
      | none => simp [hf] at h
      | some r =>
        rw [hf] at h
        refine ⟨r, rfl, List.mem_of_find?_eq_some hf, ?_, ?_⟩
        · simpa using List.find?_some hf
        · cases hr : r col with
          | none => simp [hr] at h
          | some y =>
            simp [hr] at h
            rw [h]
    · simp [hcols] at h

/-- A Created result comes from a lookup that read no id or an empty one, followed
by an accepted insert. -/
theorem sql_created_insert (rd : Reader) (wild : SQLDriver Store) (db : Store) (m : Mapping)
    (hT : rd.name m.ObjectType = true) (hS : rd.name m.Source = true)
    (hid : rd.value m.SourceID = true)
    (h : (SQLBackend.MapCreate (tableEngine rd wild) db m).1.code = StatusCreated) :
    (db.select "id" m.ObjectType m.Source m.SourceID = .error .ErrNoRows ∨
      db.select "id" m.ObjectType m.Source m.SourceID = .ok "") ∧
    (db.insert m.ObjectType m.Source m).1 = none ∧
      (SQLBackend.MapCreate (tableEngine rd wild) db m).2 = (db.insert m.ObjectType m.Source m).2 := by
  rw [sql_MapCreate_engine rd wild db m hT hS hid] at h ⊢
  cases hsel : db.select "id" m.ObjectType m.Source m.SourceID with
  | error e =>
    cases e with
    | storage msg => simp [hsel] at h
    | New msg => simp [hsel] at h
    | ErrNoRows =>
      simp only [hsel] at h ⊢
      rcases hins : db.insert m.ObjectType m.Source m with ⟨_ | e, s2⟩
      · exact ⟨by simp, rfl, rfl⟩
      · simp [hins] at h
  | ok v =>
    simp only [hsel] at h ⊢
    by_cases hv : v = ""
    · simp only [hv, ne_eq, not_true_eq_false, if_false] at h ⊢
      rcases hins : db.insert m.ObjectType m.Source m with ⟨_ | e, s2⟩
      · exact ⟨by simp, rfl, rfl⟩
      · simp [hins] at h
    · simp [hv] at h

/-- Without a Created result `SQLBackend.MapCreate` leaves the store as it was. -/
theorem sql_not_created (rd : Reader) (wild : SQLDriver Store) (db : Store) (m : Mapping)
    (hT : rd.name m.ObjectType = true) (hS : rd.name m.Source = true)
    (hid : rd.value m.SourceID = true)
    (h : (SQLBackend.MapCreate (tableEngine rd wild) db m).1.code ≠ StatusCreated) :
    (SQLBackend.MapCreate (tableEngine rd wild) db m).2 = db := by
  rw [sql_MapCreate_engine rd wild db m hT hS hid] at h ⊢
  have hins : ∀ (_ : (match db.insert m.ObjectType m.Source m with
        | (some err2, s2) =>
          (({ mapping := m, code := StatusInternalServerError, err := some err2 } :
            CreateResult), s2)
        | (none, s2) => ({ mapping := m, code := StatusCreated, err := none }, s2)).1.code
          ≠ StatusCreated),
      (match db.insert m.ObjectType m.Source m with
        | (some err2, s2) =>
          (({ mapping := m, code := StatusInternalServerError, err := some err2 } :
            CreateResult), s2)
        | (none, s2) => ({ mapping := m, code := StatusCreated, err := none }, s2)).2 = db := by
    intro h0
    rcases hi : db.insert m.ObjectType m.Source m with ⟨_ | e, s2⟩
    · simp [hi] at h0
    · have := insert_failed db m.ObjectType m.Source m e (by rw [hi])
      rw [hi] at this
      simpa using this
  cases hsel : db.select "id" m.ObjectType m.Source m.SourceID with
  | error e =>
    cases e with
    | storage msg => rfl
    | New msg => rfl
    | ErrNoRows =>
      simp only [hsel] at h ⊢
      exact hins h
  | ok v =>
    simp only [hsel] at h ⊢
    by_cases hv : v = ""
    · simp only [hv, ne_eq, not_true_eq_false, if_false] at h ⊢
      exact hins h
    · simp [hv]

/-- After a Created result the lookup for the same (T, S, id) reads the canonical of
the mapping, when that canonical is empty or no matching row had an empty id. -/
theorem select_after_create (rd : Reader) (wild : SQLDriver Store) (db : Store) (m : Mapping)
    (hT : rd.name m.ObjectType = true) (hS : rd.name m.Source = true)
    (hid : rd.value m.SourceID = true)
    (hfree : m.Canonical = "" ∨ db.noEmptyMatch m)
    (h : (SQLBackend.MapCreate (tableEngine rd wild) db m).1.code = StatusCreated) :
    (SQLBackend.MapCreate (tableEngine rd wild) db m).2.select "id" m.ObjectType m.Source
      m.SourceID = .ok m.Canonical := by
  obtain ⟨hsel, hins, hst⟩ := sql_created_insert rd wild db m hT hS hid h
  obtain ⟨t, ht, hidc, hsc, hne, _, hput⟩ := insert_ok db _ _ m hins
  rw [hst, hput]
  rw [select_stored _ _ _ _ _ { t with rows := t.rows ++ [insertedRow m.Source m] }
    (Store.put_same db _ _) hidc hsc]
  simp only
  rw [List.find?_append]
  rcases hsel with hsel | hsel
  · obtain ⟨t2, ht2, _, _, hnone⟩ := select_no_rows db _ _ _ _ hsel
    rw [ht] at ht2
    cases ht2
    have h0 : List.find? (fun r => decide (r m.Source = some m.SourceID)) t.rows = none := by
      rw [List.find?_eq_none]
      intro r hr
      simpa using hnone r hr
    rw [h0]
    simp [List.find?, insertedRow, hne]
  · obtain ⟨t2, ht2, r, hfind, hr, hw, hrid⟩ := select_ok db _ _ _ _ _ hsel
    rw [ht] at ht2
    cases ht2
    rcases hfree with hc | hfree
    · rw [hfind]
      simp [hrid, hc]
    · exfalso
      unfold Store.noEmptyMatch at hfree
      rw [ht] at hfree
      exact hfree r hr hw hrid

/-- The method `SQLBackend.SourceInfo` on the tabular engine, by the outcome of the
lookup. -/
theorem sql_SourceInfo_engine (rd : Reader) (wild : SQLDriver Store) (db : Store) (m : Mapping)
    (hT : rd.name m.ObjectType = true) (hS : rd.name m.Source = true)
    (hid : rd.value m.SourceID = true) :
    SQLBackend.SourceInfo (tableEngine rd wild) db m =
      match db.select "id" m.ObjectType m.Source m.SourceID with
      | .error .ErrNoRows =>
        ({ mapping := m, value := "error retrieving canonical identifier",
           code := StatusNotFound, err := some .ErrNoRows }, db)
      | .error e =>
        ({ mapping := m, value := "error retrieving canonical identifier",
           code := StatusInternalServerError, err := some e }, db)
      | .ok v => ({ mapping := m, value := v, code := StatusOK, err := none }, db) := by
  simp only [SQLBackend.SourceInfo, tableEngine, SQL.plain, hT, Reader.column_of_name rd _ hS, hid, Reader.column_id,
    Bool.and_self, if_true]
  cases hsel : db.select "id" m.ObjectType m.Source m.SourceID with
  | error e =>
    cases e with
    | ErrNoRows => simp [scanErr, scanned, hsel]
    | storage msg => simp [scanErr, scanned, hsel]
    | New msg => simp [scanErr, scanned, hsel]
  | ok v => simp [scanErr, scanned, hsel]
/-- The method `SQLBackend.MapUpdate` on the tabular engine. -/
theorem sql_MapUpdate_engine (rd : Reader) (wild : SQLDriver Store) (db : Store) (m : Mapping)
    (hT : rd.name m.ObjectType = true) (hS : rd.name m.Source = true)
    (hc : rd.value m.Canonical = true) :
    SQLBackend.MapUpdate (tableEngine rd wild) db m =
      match db.update m.ObjectType m.Source m.Canonical m with
      | (some err, s1) =>
        ({ mapping := m, value := "error updating mapping",
           code := StatusInternalServerError, err := some err }, s1)
      | (none, s1) =>
        ({ mapping := m, value := "mapping successfully updated", code := StatusOK,
           err := none }, s1) := by
  simp only [SQLBackend.MapUpdate, tableEngine, SQL.plain, hT, Reader.column_of_name rd _ hS, hc,
    Bool.and_self, if_true]
  rcases db.update m.ObjectType m.Source m.Canonical m with ⟨_ | e, s1⟩ <;> rfl

/-- An accepted update on the tabular engine. -/
theorem update_ok (db : Store) (T S c : String) (m : Mapping)
    (h : (db.update T S c m).1 = none) :
    ∃ t, db T = some t ∧ "id" ∈ t.columns ∧ S ∈ t.columns ∧
      (db.update T S c m).2 = db.put T { t with rows := t.rows.map (updateWhere S c m) } := by
  unfold Store.update at h ⊢
  cases ht : db T with
  | none => simp [ht] at h
  | some t =>
    simp only [ht] at h ⊢
    by_cases hcols : "id" ∈ t.columns ∧ S ∈ t.columns
    · refine ⟨t, rfl, hcols.1, hcols.2, ?_⟩
      simp only [hcols, and_self, not_true_eq_false, if_false] at h ⊢
      split
      · rename_i hdup
        rw [if_pos hdup] at h
        simp at h
      · rfl
    · simp [hcols] at h

/-- A refused update leaves the store as it was. -/
theorem update_failed (db : Store) (T S c : String) (m : Mapping) (e : GoError)
    (h : (db.update T S c m).1 = some e) : (db.update T S c m).2 = db := by
  unfold Store.update at h ⊢
  cases ht : db T with
  | none => rfl
  | some t =>
    simp only [ht] at h ⊢
    split
    · rfl
    · split
      · rfl
      · rename_i h1 h2
        rw [if_neg h1, if_neg h2] at h
        simp at h

/-- An OK result of MapUpdate comes from an accepted update. -/
theorem sql_updated (rd : Reader) (wild : SQLDriver Store) (db : Store) (m : Mapping)
    (hT : rd.name m.ObjectType = true) (hS : rd.name m.Source = true)
    (hc : rd.value m.Canonical = true)
    (h : (SQLBackend.MapUpdate (tableEngine rd wild) db m).1.code = StatusOK) :
    (db.update m.ObjectType m.Source m.Canonical m).1 = none ∧
      (SQLBackend.MapUpdate (tableEngine rd wild) db m).2 =
        (db.update m.ObjectType m.Source m.Canonical m).2 := by
  rw [sql_MapUpdate_engine rd wild db m hT hS hc] at h ⊢
  rcases hu : db.update m.ObjectType m.Source m.Canonical m with ⟨_ | e, s1⟩
  · exact ⟨rfl, rfl⟩
  · simp [hu] at h

/-- The store left by MapUpdate is the one left by the update statement. -/
theorem sql_MapUpdate_store (rd : Reader) (wild : SQLDriver Store) (db : Store) (m : Mapping)
    (hT : rd.name m.ObjectType = true) (hS : rd.name m.Source = true)
    (hc : rd.value m.Canonical = true) :
    (SQLBackend.MapUpdate (tableEngine rd wild) db m).2 =
      (db.update m.ObjectType m.Source m.Canonical m).2 := by
  rw [sql_MapUpdate_engine rd wild db m hT hS hc]
  rcases db.update m.ObjectType m.Source m.Canonical m with ⟨_ | e, s1⟩ <;> rfl

/-- The loop of `SQLBackend.CanonicalInfo` on the tabular engine: one mapping for
every source whose lookup scans a non-empty string. -/
theorem canonicalLoop_engine (ObjectURL : Mapping → String → String)
    (rd : Reader) (wild : SQLDriver Store) (db : Store)
    (mq : Mapping) (baseURL : String) (hT : rd.name mq.ObjectType = true)
    (hc : rd.value mq.Canonical = true) (acc : List Mapping) (srcs : List String)
    (hsrcs : ∀ s ∈ srcs, rd.name s = true) :
    SQLBackend.canonicalLoop ObjectURL (tableEngine rd wild) mq baseURL db acc srcs =
      (acc ++ srcs.filterMap (fun source =>
          if scanned (db.select source mq.ObjectType "id" mq.Canonical) ≠ "" then
            some (NewMapping ObjectURL mq.Canonical source
              (scanned (db.select source mq.ObjectType "id" mq.Canonical)) mq.Object
              mq.ObjectType baseURL)
          else none), db) := by
  induction srcs generalizing acc with
  | nil => simp [SQLBackend.canonicalLoop]
  | cons source rest ih =>
    have hs : rd.name source = true := hsrcs source (List.mem_cons_self _ _)
    have hrest : ∀ s ∈ rest, rd.name s = true :=
      fun s h => hsrcs s (List.mem_cons_of_mem _ h)
    rw [SQLBackend.canonicalLoop]
    have hq : (tableEngine rd wild).QueryRowScan db
        (SQL.select source mq.ObjectType "id" mq.Canonical)
        = (db.select source mq.ObjectType "id" mq.Canonical, db) := by
      simp [tableEngine, SQL.plain, hT, hc, Reader.column_of_name rd _ hs, Reader.column_id]
    rw [hq]
    by_cases hv : scanned (db.select source mq.ObjectType "id" mq.Canonical) = ""
    · simp [hv, ih acc hrest]
    · simp [hv, ih _ hrest]

theorem mem_sources_ne_id (s : String) (h : s ∈ sources) : s ≠ "id" := by
  simp only [sources, List.mem_cons, List.mem_singleton, List.not_mem_nil, or_false] at h
  rcases h with rfl | rfl | rfl | rfl <;> decide

/-- The lookups of CanonicalInfo after a create followed by an update of the same
canonical: the row stored by the create, as changed by the update, answers. -/
theorem select_after_update (db : Store) (t : Table) (T : String) (m1 m2 : Mapping)
    (source : String)
    (hidc : "id" ∈ t.columns) (hs1 : m1.Source ∈ t.columns) (hs2 : m2.Source ∈ t.columns)
    (h1id : m1.Source ≠ "id") (h2id : m2.Source ≠ "id") (hsid : source ≠ "id")
    (hfresh : ∀ r ∈ t.rows, r "id" ≠ some m1.Canonical) :
    scanned ((db.put T
        { t with
          rows :=
            List.map (updateWhere m2.Source m1.Canonical m2)
              (t.rows ++ [insertedRow m1.Source m1]) }).select source T "id" m1.Canonical)
      = if source = m2.Source then m2.SourceID
        else if source = m1.Source then m1.SourceID else "" := by
  have hfind : List.find? (fun r => decide (r "id" = some m1.Canonical))
      ((t.rows ++ [insertedRow m1.Source m1]).map (updateWhere m2.Source m1.Canonical m2))
      = some (updatedRow m2.Source m2 (insertedRow m1.Source m1)) := by
    rw [List.map_append, List.find?_append]
    have h0 : List.find? (fun r => decide (r "id" = some m1.Canonical))
        (t.rows.map (updateWhere m2.Source m1.Canonical m2)) = none := by
      rw [List.find?_eq_none]
      intro r hr
      rw [List.mem_map] at hr
      obtain ⟨r0, hr0, rfl⟩ := hr
      have := hfresh r0 hr0
      simp [updateWhere, this]
    rw [h0]
    simp [List.find?, updateWhere, insertedRow, updatedRow, h2id.symm]
  unfold Store.select
  rw [Store.put_same]
  simp only
  by_cases hcol : source ∈ t.columns
  · simp only [hcol, hidc, and_self, if_true, hfind]
    by_cases h2 : source = m2.Source
    · simp [updatedRow, h2, scanned]
    · by_cases h1 : source = m1.Source
      · have h12 : m1.Source ≠ m2.Source := fun h => h2 (h1.trans h)
        simp [updatedRow, insertedRow, h1, scanned, h1id, h12]
      · simp [updatedRow, insertedRow, h2, h1, scanned, hsid]
  · have h2 : source ≠ m2.Source := fun h => hcol (h ▸ hs2)
    have h1 : source ≠ m1.Source := fun h => hcol (h ▸ hs1)
    simp [hcol, h1, h2, scanned]

/-- The (Source, SourceID) pairs listed by CanonicalInfo after a create followed by
an update of the same canonical, in the order of the known sources. -/
theorem pairs_after_update (ObjectURL : Mapping → String → String) (rd : Reader) (wild : SQLDriver Store)
    (db : Store) (m1 m2 mq : Mapping) (baseURL : String)
    (hT : rd.name m1.ObjectType = true) (hid : rd.value m1.SourceID = true)
    (hc : rd.value m1.Canonical = true) (hsrc : ∀ s ∈ sources, rd.name s = true)
    (hkey : db.idIsKey m1.ObjectType)
    (hS1 : m1.Source ∈ sources) (hS2 : m2.Source ∈ sources)
    (hT2 : m2.ObjectType = m1.ObjectType) (hc2 : m2.Canonical = m1.Canonical)
    (hTq : mq.ObjectType = m1.ObjectType) (hcq : mq.Canonical = m1.Canonical)
    (h1 : (SQLBackend.MapCreate (tableEngine rd wild) db m1).1.code = StatusCreated)
    (h2 : (SQLBackend.MapUpdate (tableEngine rd wild)
            (SQLBackend.MapCreate (tableEngine rd wild) db m1).2 m2).1.code = StatusOK) :
    (SQLBackend.CanonicalInfo ObjectURL (tableEngine rd wild)
        (SQLBackend.MapUpdate (tableEngine rd wild)
          (SQLBackend.MapCreate (tableEngine rd wild) db m1).2 m2).2
        mq baseURL).1.mappings.map (fun x => (x.Source, x.SourceID))
      = sources.filterMap (fun s =>
          if (if s = m2.Source then m2.SourceID
              else if s = m1.Source then m1.SourceID else "") ≠ "" then
            some (s, if s = m2.Source then m2.SourceID
                     else if s = m1.Source then m1.SourceID else "")
          else none) := by
  have hp1 := hsrc _ hS1
  have hp2 := hsrc _ hS2
  obtain ⟨_, hins, hst1⟩ := sql_created_insert rd wild db m1 hT hp1 hid h1
  obtain ⟨t, ht, hidc, hs1, h1id, hkeys, hput⟩ := insert_ok db _ _ m1 hins
  have hfresh : ∀ r ∈ t.rows, r "id" ≠ some m1.Canonical := by
    unfold Store.idIsKey at hkey
    rw [ht] at hkey
    exact insert_fresh t m1.Source m1 hkey hkeys
  obtain ⟨hupd, hst2⟩ := sql_updated rd wild _ m2 (by rw [hT2]; exact hT) hp2
    (by rw [hc2]; exact hc) h2
  obtain ⟨t1, ht1, _, hs2, hput2⟩ := update_ok _ _ _ _ m2 hupd
  rw [hst1, hput, hT2, Store.put_same] at ht1
  cases ht1
  rw [hst2, hput2, hc2, hT2]
  simp only [SQLBackend.CanonicalInfo]
  rw [canonicalLoop_engine ObjectURL rd wild _ mq baseURL (by rw [hTq]; exact hT)
    (by rw [hcq]; exact hc) [] sources hsrc]
  simp only [List.nil_append, List.map_filterMap, hTq, hcq]
  apply List.filterMap_congr
  intro s hs
  rw [select_after_update _ t m1.ObjectType m1 m2 s hidc hs1 hs2 h1id
    (mem_sources_ne_id _ hS2) (mem_sources_ne_id _ hs) hfresh]
  generalize (if s = m2.Source then m2.SourceID
    else if s = m1.Source then m1.SourceID else "") = val
  by_cases hv : val = ""
  · simp [hv]
  · simp [hv, NewMapping]
/-- A row stored last keeps the invariant when every stored row with its source id
already carries its id. -/
theorem append_oneCanonical (t : Table) (S : String) (m : Mapping) (hinv : t.oneCanonical)
    (hne : S ≠ "id")
    (hmatch : ∀ r ∈ t.rows, r S = some m.SourceID → r "id" = some m.Canonical) :
    Table.oneCanonical { t with rows := t.rows ++ [insertedRow S m] } := by
  intro r1 hr1 r2 hr2 col hcol hcid hnn heq
  have hnew : ∀ r : SQLRow, insertedRow S m col = r col → r ∈ t.rows →
      insertedRow S m col ≠ none → r "id" = some m.Canonical := by
    intro r hr hmem hn
    have hc : col = S := by
      by_contra hc
      simp [insertedRow, hcid, hc] at hn
    subst hc
    apply hmatch r hmem
    rw [← hr]
    simp [insertedRow, hne]
  simp only [List.mem_append, List.mem_singleton] at hr1 hr2
  rcases hr1 with hr1 | rfl <;> rcases hr2 with hr2 | rfl
  · exact hinv r1 hr1 r2 hr2 col hcol hcid hnn heq
  · rw [hnew r1 heq.symm hr1 (by rw [← heq]; exact hnn)]
    simp [insertedRow]
  · rw [hnew r2 heq hr2 hnn]
    simp [insertedRow]
  · rfl

/-- `SQLBackend.MapCreate` keeps the invariant except in the case `createSplits`. -/
theorem sql_MapCreate_oneCanonical (rd : Reader) (wild : SQLDriver Store) (db : Store) (m : Mapping)
    (T : String) (hinv : db.oneCanonical T)
    (hT : rd.name m.ObjectType = true) (hS : rd.name m.Source = true)
    (hid : rd.value m.SourceID = true) :
    (SQLBackend.MapCreate (tableEngine rd wild) db m).2.oneCanonical T ↔
      ¬ (T = m.ObjectType ∧ db.createSplits m) := by
  constructor
  · rintro hpres ⟨hTeq, hsel, hins, hcne⟩
    subst hTeq
    have hst : (SQLBackend.MapCreate (tableEngine rd wild) db m).2
        = (db.insert m.ObjectType m.Source m).2 := by
      rw [sql_MapCreate_engine rd wild db m hT hS hid, hsel]
      simp only [ne_eq, not_true_eq_false, if_false]
      rcases hi : db.insert m.ObjectType m.Source m with ⟨_ | e, s2⟩
      · rfl
      · simp [hi] at hins
    obtain ⟨t, ht, _, hsc, hne, _, hput⟩ := insert_ok db _ _ m hins
    obtain ⟨t2, ht2, r0, _, hr0, hw, hr0id⟩ := select_ok db _ _ _ _ _ hsel
    rw [ht] at ht2
    cases ht2
    rw [hst, hput] at hpres
    unfold Store.oneCanonical at hpres
    rw [Store.put_same] at hpres
    have := hpres (insertedRow m.Source m) (by simp) r0 (by simp [hr0]) m.Source hsc hne
      (by simp [insertedRow, hne]) (by simp [insertedRow, hne, hw])
    rw [hr0id] at this
    simp [insertedRow] at this
    exact hcne this
  · intro hns
    by_cases h : (SQLBackend.MapCreate (tableEngine rd wild) db m).1.code = StatusCreated
    · obtain ⟨hsel, hins, hst⟩ := sql_created_insert rd wild db m hT hS hid h
      obtain ⟨t, ht, _, hsc, hne, _, hput⟩ := insert_ok db _ _ m hins
      rw [hst, hput]
      by_cases hTeq : T = m.ObjectType
      · subst hTeq
        unfold Store.oneCanonical at hinv ⊢
        rw [ht] at hinv
        rw [Store.put_same]
        apply append_oneCanonical t m.Source m hinv hne
        intro r hr hrS
        rcases hsel with hsel | hsel
        · obtain ⟨t2, ht2, _, _, hnone⟩ := select_no_rows db _ _ _ _ hsel
          rw [ht] at ht2
          cases ht2
          exact absurd hrS (hnone r hr)
        · obtain ⟨t2, ht2, r0, _, hr0, hw, hr0id⟩ := select_ok db _ _ _ _ _ hsel
          rw [ht] at ht2
          cases ht2
          have hc : m.Canonical = "" := by
            by_contra hc
            exact hns ⟨rfl, hsel, hins, hc⟩
          rw [hc, ← hr0id]
          exact hinv r hr r0 hr0 m.Source hsc hne (by rw [hrS]; simp) (by rw [hrS, hw])
      · unfold Store.oneCanonical at hinv ⊢
        rw [Store.put_other _ _ _ _ hTeq]
        exact hinv
    · rw [sql_not_created rd wild db m hT hS hid h]
      exact hinv

/-- `SQLBackend.MapUpdate` keeps the invariant except in the case `updateSplits`. -/
theorem sql_MapUpdate_oneCanonical (rd : Reader) (wild : SQLDriver Store) (db : Store) (m : Mapping)
    (T : String) (hinv : db.oneCanonical T)
    (hT : rd.name m.ObjectType = true) (hS : rd.name m.Source = true)
    (hc : rd.value m.Canonical = true) :
    (SQLBackend.MapUpdate (tableEngine rd wild) db m).2.oneCanonical T ↔
      ¬ (T = m.ObjectType ∧ db.updateSplits m) := by
  rw [sql_MapUpdate_store rd wild db m hT hS hc]
  constructor
  · rintro hpres ⟨hTeq, hacc, hSid, hrows⟩
    subst hTeq
    obtain ⟨t, ht, _, hsc, hput⟩ := update_ok db _ _ _ m hacc
    rw [ht] at hrows
    obtain ⟨⟨r1, hr1, hr1id⟩, r2, hr2, hr2S, hr2id⟩ := hrows
    rw [hput] at hpres
    unfold Store.oneCanonical at hpres
    rw [Store.put_same] at hpres
    have := hpres (updateWhere m.Source m.Canonical m r1)
      (List.mem_map.mpr ⟨r1, hr1, rfl⟩)
      (updateWhere m.Source m.Canonical m r2) (List.mem_map.mpr ⟨r2, hr2, rfl⟩)
      m.Source hsc hSid (by simp [updateWhere, updatedRow, hr1id])
      (by simp [updateWhere, updatedRow, hr1id, hr2id, hr2S])
    simp only [updateWhere, updatedRow, hr1id, hr2id, if_true, if_false, hSid.symm] at this
    exact hr2id this.symm
  · intro hns
    rcases hu : (db.update m.ObjectType m.Source m.Canonical m).1 with _ | e
    · obtain ⟨t, ht, _, _, hput⟩ := update_ok db _ _ _ m hu
      rw [hput]
      by_cases hTeq : T = m.ObjectType
      · subst hTeq
        unfold Store.oneCanonical at hinv ⊢
        rw [ht] at hinv
        rw [Store.put_same]
        intro r1' hr1 r2' hr2 col hcol hcid hnn heq
        simp only [List.mem_map] at hr1 hr2
        obtain ⟨r1, hm1, rfl⟩ := hr1
        obtain ⟨r2, hm2, rfl⟩ := hr2
        by_cases hcS : col = m.Source
        · subst hcS
          have hsplit : ∀ ra rb : SQLRow, ra ∈ t.rows → rb ∈ t.rows →
              ra "id" = some m.Canonical → rb m.Source = some m.SourceID →
              rb "id" ≠ some m.Canonical → False := by
            intro ra rb hma hmb ha hb hbn
            apply hns
            refine ⟨rfl, hu, hcid, ?_⟩
            rw [ht]
            exact ⟨⟨ra, hma, ha⟩, rb, hmb, hb, hbn⟩
          by_cases h1 : r1 "id" = some m.Canonical <;>
            by_cases h2 : r2 "id" = some m.Canonical
          · simp [updateWhere, updatedRow, h1, h2, hcid.symm]
          · exfalso
            simp only [updateWhere, updatedRow, h1, h2, if_true, if_false] at heq
            exact hsplit r1 r2 hm1 hm2 h1 heq.symm h2
          · exfalso
            simp only [updateWhere, updatedRow, h1, h2, if_true, if_false] at heq
            exact hsplit r2 r1 hm2 hm1 h2 heq h1
          · simp only [updateWhere, h1, h2, if_false] at hnn heq ⊢
            exact hinv r1 hm1 r2 hm2 _ hcol hcid hnn heq
        · have hval : ∀ r : SQLRow, updateWhere m.Source m.Canonical m r col = r col := by
            intro r
            unfold updateWhere updatedRow
            split <;> simp [hcS]
          rw [hval] at hnn heq
          rw [hval] at heq
          have hids := hinv r1 hm1 r2 hm2 col hcol hcid hnn heq
          unfold updateWhere updatedRow
          rw [← hids]
          split <;> simp [hids]
      · unfold Store.oneCanonical at hinv ⊢
        rw [Store.put_other _ _ _ _ hTeq]
        exact hinv
    · rw [update_failed db m.ObjectType m.Source m.Canonical m e hu]
      exact hinv
/-! ## The claims -/

/-- C7: graph MapCreate conflict policy. When the upsert query returns a non-empty
record list without error, with v the value under o.canonical in the first record:
if v differs from mapping.Canonical the call returns Conflict with a nil error and the
mapping carries Canonical = v, all other fields unchanged; if v equals
mapping.Canonical it returns Created with a nil error and the mapping is unchanged. -/
theorem neo_MapCreate_conflict_policy {σ : Type} (d : GraphDriver σ Cypher) (s s1 : σ)
    (mapping : Mapping) (first : Record) (rest : List Record)
    (h : graphExec d s [Cypher.mergeCreate mapping.ObjectType mapping.SourceID mapping.Source
          mapping.Canonical] = (.ok (first :: rest), s1)) :
    (first.index "o.canonical" ≠ mapping.Canonical →
      NeoBackend.MapCreate d s mapping =
        (.returns { mapping := { mapping with Canonical := first.index "o.canonical" },
                    code := StatusConflict, err := none }, s1)) ∧
    (first.index "o.canonical" = mapping.Canonical →
      NeoBackend.MapCreate d s mapping =
        (.returns { mapping := mapping, code := StatusCreated, err := none }, s1)) := by
  constructor
  · intro hv
    simp only [NeoBackend.MapCreate, h]
    rw [if_pos hv]
  · intro hv
    simp only [NeoBackend.MapCreate, h]
    rw [if_neg (not_not.mpr hv)]

/-- Witness of C7 on the graph engine: person c0 is stored for SF-1, the caller
proposes c1 and gets Conflict with the mapping carrying c0. -/
theorem neo_MapCreate_conflict_policy_witness :
    graphExec (graphEngine plainReader cypherRefused) graphC0
        [Cypher.mergeCreate "person" "SF-1" "salesforce" "c1"]
        = (.ok [fillRow ["o.canonical"] [some "c0"] Record.empty], graphC0) ∧
    NeoBackend.MapCreate (graphEngine plainReader cypherRefused) graphC0 (sf1 "c1") =
      (.returns { mapping := sf1 "c0", code := StatusConflict, err := none }, graphC0) :=
  ⟨rfl, (neo_MapCreate_conflict_policy (graphEngine plainReader cypherRefused) graphC0 graphC0 (sf1 "c1")
      (fillRow ["o.canonical"] [some "c0"] Record.empty) [] rfl).1 (by decide)⟩

/-- C10: on a result set whose row scan fails, graphExec returns an empty record
list with a nil error; MapCreate then indexes vals[0] and the runtime panics, while
SourceInfo, which checks the length first, returns NotFound. -/
theorem neo_MapCreate_panics_on_empty_result :
    graphExec scanFails () [Cypher.mergeCreate "person" "SF-1" "salesforce" "c1"]
        = (.ok [], ()) ∧
    (NeoBackend.MapCreate scanFails () (sf1 "c1")).1
        = .panics "runtime error: index out of range [0] with length 0" ∧
    (NeoBackend.SourceInfo scanFails () (sf1 "c1")).1.code = StatusNotFound :=
  ⟨rfl, rfl, rfl⟩

/-- C8, counterexample: with the column name a used twice, the record of the row
(x, y) maps a to y, the cell of the last column of that name, not to x, the cell of
column 0. -/
theorem packageData_duplicate_column :
    ["a", "a"][0]? = some "a" ∧ [some "x", some "y"][0]? = some (some "x") ∧
    (packageData { Columns := .ok ["a", "a"], scans := [.ok [some "x", some "y"]] }).map
        (fun r => r "a") = [some "y"] :=
  ⟨rfl, rfl, rfl⟩

/-- C8, amended: for column names cols that are non-empty and pairwise distinct, and
rows that all scan successfully (each with as many cells as there are columns),
packageData returns one record per row in row order; record k maps cols[i] to the
bytes of cell (k, i) read as a string, or to the string NULL when that cell is nil,
and has no other key. -/
theorem packageData_records (cols : List String) (cells : List (List (Option String)))
    (hne : cols ≠ []) (hnd : cols.Nodup) (hlen : ∀ r ∈ cells, r.length = cols.length) :
    (packageData { Columns := .ok cols, scans := cells.map Except.ok }).length = cells.length ∧
    ∀ (k : Nat) (row : List (Option String)), cells[k]? = some row →
      ∃ r : Record,
        (packageData { Columns := .ok cols, scans := cells.map Except.ok })[k]? = some r ∧
        (∀ (i : Nat) (c : String), cols[i]? = some c →
          (row[i]? = some none → r c = some "NULL") ∧
          (∀ b : String, row[i]? = some (some b) → r c = some b)) ∧
        (∀ key, key ∉ cols → r key = none) := by
  rw [packageData_ok cols cells hne hlen]
  refine ⟨by simp, ?_⟩
  intro k row hk
  refine ⟨fillRow cols row Record.empty, by simp [hk], ?_, ?_⟩
  · intro i c hc
    constructor
    · intro hv
      exact fillRow_get cols hnd row _ i c none hc hv
    · intro b hv
      exact fillRow_get cols hnd row _ i c (some b) hc hv
  · intro key hkey
    rw [fillRow_not_mem cols row _ key hkey]
    rfl

/-- Witness of C8: two columns, two rows, the second with a nil cell. -/
theorem packageData_records_witness :
    (twoColumns ≠ [] ∧ twoColumns.Nodup ∧ ∀ r ∈ twoRows, r.length = twoColumns.length) ∧
    ((packageData { Columns := .ok twoColumns, scans := twoRows.map Except.ok }).length
      = twoRows.length ∧
    ∀ (k : Nat) (row : List (Option String)), twoRows[k]? = some row →
      ∃ r : Record,
        (packageData { Columns := .ok twoColumns, scans := twoRows.map Except.ok })[k]?
          = some r ∧
        (∀ (i : Nat) (c : String), twoColumns[i]? = some c →
          (row[i]? = some none → r c = some "NULL") ∧
          (∀ b : String, row[i]? = some (some b) → r c = some b)) ∧
        (∀ key, key ∉ twoColumns → r key = none)) :=
  ⟨⟨by decide, by decide, by decide⟩,
    packageData_records twoColumns twoRows (by decide) (by decide) (by decide)⟩

/-- C4, counterexample: on a table person without rows and on an empty graph the
lookup of SF-1 finds nothing, and the string returned with NotFound is a message, not
the empty string. -/
theorem SourceInfo_not_found_value :
    (personStore []).select "id" "person" "salesforce" "SF-1" = .error .ErrNoRows ∧
    (SQLBackend.SourceInfo (tableEngine plainReader sqlRefused) (personStore []) (sf1 "")).1.code
      = StatusNotFound ∧
    (SQLBackend.SourceInfo (tableEngine plainReader sqlRefused) (personStore []) (sf1 "")).1.value ≠ "" ∧
    (graphExec (graphEngine plainReader cypherRefused) ⟨[], []⟩
        [Cypher.matchSource "person" "SF-1" "salesforce"]).1 = .ok [] ∧
    (NeoBackend.SourceInfo (graphEngine plainReader cypherRefused) ⟨[], []⟩ (sf1 "")).1.code
      = StatusNotFound ∧
    (NeoBackend.SourceInfo (graphEngine plainReader cypherRefused) ⟨[], []⟩ (sf1 "")).1.value ≠ "" :=
  ⟨rfl, rfl, by decide, rfl, rfl, by decide⟩

/-- C4, amended: when the relational lookup yields no row, SQLBackend.SourceInfo
returns status NotFound, the error sql.ErrNoRows and the message
"error retrieving canonical identifier" in place of a canonical; when the graph query
yields zero records without error, NeoBackend.SourceInfo returns status NotFound, a
non-nil error and the message "resource not found", and leaves the mapping as it was. -/
theorem SourceInfo_not_found {σ τ : Type} (d : SQLDriver σ) (s : σ)
    (g : GraphDriver τ Cypher) (t t1 : τ) (mapping : Mapping)
    (hsql : (d.QueryRowScan
              (d.Query s (SQL.select "id" mapping.ObjectType mapping.Source mapping.SourceID)).2
              (SQL.select "id" mapping.ObjectType mapping.Source mapping.SourceID)).1
            = .error .ErrNoRows)
    (hneo : graphExec g t
              [Cypher.matchSource mapping.ObjectType mapping.SourceID mapping.Source]
            = (.ok [], t1)) :
    (SQLBackend.SourceInfo d s mapping).1 =
      { mapping := mapping, value := "error retrieving canonical identifier",
        code := StatusNotFound, err := some .ErrNoRows } ∧
    NeoBackend.SourceInfo g t mapping =
      ({ mapping := mapping, value := "resource not found", code := StatusNotFound,
         err := some (.New "resource not found") }, t1) := by
  constructor
  · simp only [SQLBackend.SourceInfo]
    rw [hsql]
    rfl
  · simp only [NeoBackend.SourceInfo, hneo]

/-- Witness of C4: the table person without rows and the empty graph. -/
theorem SourceInfo_not_found_witness :
    (SQLBackend.SourceInfo (tableEngine plainReader sqlRefused) (personStore []) (sf1 "")).1 =
      { mapping := sf1 "", value := "error retrieving canonical identifier",
        code := StatusNotFound, err := some .ErrNoRows } ∧
    NeoBackend.SourceInfo (graphEngine plainReader cypherRefused) ⟨[], []⟩ (sf1 "") =
      ({ mapping := sf1 "", value := "resource not found", code := StatusNotFound,
         err := some (.New "resource not found") }, ⟨[], []⟩) :=
  SourceInfo_not_found (tableEngine plainReader sqlRefused) (personStore []) (graphEngine plainReader cypherRefused)
    ⟨[], []⟩ ⟨[], []⟩ (sf1 "") rfl rfl

/-- C9: storage errors that are not returned. (1) The table person is not stored:
every row scan of SQLBackend.CanonicalInfo fails with the error of the storage layer,
and the call returns status OK, no mapping and a nil error. (2) The same on a
connection whose row scans all fail. (3) On a graph connection whose row scan fails,
graphExec returns an empty list and a nil error. -/
theorem scan_failure_not_returned :
    ((tableEngine plainReader sqlRefused).QueryRowScan (fun _ => none)
        (SQL.select "salesforce" "person" "id" "c1")).1
      = .error (.storage "Error 1146: Table does not exist") ∧
    (SQLBackend.CanonicalInfo (fun _ base => base) (tableEngine plainReader sqlRefused) (fun _ => none)
        (sf1 "c1") "").1
      = { mappings := [], code := StatusOK, err := none } ∧
    (sqlScanFails.QueryRowScan () (SQL.select "salesforce" "person" "id" "c1")).1
      = .error (.storage "scan failed") ∧
    (SQLBackend.CanonicalInfo (fun _ base => base) sqlScanFails () (sf1 "c1") "").1
      = { mappings := [], code := StatusOK, err := none } ∧
    (scanFails.Query () (Cypher.matchSource "person" "SF-1" "salesforce")).1.toOption.map
        (fun rows => rows.scans.map (Scan 1))
      = some [.error (.storage "scan failed")] ∧
    (graphExec scanFails () [Cypher.matchSource "person" "SF-1" "salesforce"]).1 = .ok [] :=
  ⟨rfl, rfl, rfl, rfl, rfl, rfl⟩

/-- C2, counterexample: after MapCreate of (person, salesforce, SF-1) with canonical
c1 on an empty graph, a second MapCreate with the same canonical returns Created,
not Conflict. -/
theorem neo_MapCreate_twice_same_canonical :
    (NeoBackend.MapCreate (graphEngine plainReader cypherRefused) ⟨[], []⟩ (sf1 "c1")) =
      (.returns { mapping := sf1 "c1", code := StatusCreated, err := none },
       { nodes := [⟨"person", some "c1", none⟩, ⟨"source", none, some "salesforce"⟩],
         rels := [⟨0, 1, "SF-1"⟩] }) ∧
    (NeoBackend.MapCreate (graphEngine plainReader cypherRefused)
        (NeoBackend.MapCreate (graphEngine plainReader cypherRefused) ⟨[], []⟩ (sf1 "c1")).2
        (sf1 "c1")).1 =
      .returns { mapping := sf1 "c1", code := StatusCreated, err := none } :=
  ⟨rfl, rfl⟩

/-- C2, amended: on the graph engine, for an object type, a source, an id and
proposed canonicals that the engine reads unchanged from the query text, and a graph
whose relationships join stored nodes. A first MapCreate for (T, S, id) returns with v in
the mapping, where v is the canonical stored for (T, S, id) afterwards, as SourceInfo
resolves it: the proposed canonical when no path for (T, S, id) was stored before
(then the call returns Created), else the canonical of the first stored match, the
graph being left as it was. A second MapCreate for the same (T, S, id) leaves the
graph as the first call left it; it returns Conflict with a nil error and the mapping
carrying v when the proposed canonical differs from v, and Created when it equals v. -/
theorem neo_MapCreate_twice (rd : Reader) (wild : GraphDriver Graph Cypher) (g : Graph) (hwf : g.wf)
    (m m2 : Mapping)
    (hT : rd.name m.ObjectType = true) (hS : rd.value m.Source = true)
    (hid : rd.value m.SourceID = true) (hc : rd.value m.Canonical = true)
    (hc2 : rd.value m2.Canonical = true)
    (hT2 : m2.ObjectType = m.ObjectType) (hS2 : m2.Source = m.Source)
    (hid2 : m2.SourceID = m.SourceID) :
    ∃ v : String,
      (NeoBackend.MapCreate (graphEngine rd wild) g m).1 =
        .returns { mapping := { m with Canonical := v },
                   code := if v = m.Canonical then StatusCreated else StatusConflict,
                   err := none } ∧
      (g.knows m.ObjectType m.SourceID m.Source = [] → v = m.Canonical) ∧
      (∀ o os, g.knows m.ObjectType m.SourceID m.Source = o :: os →
        v = cellValue o.canonical ∧ (NeoBackend.MapCreate (graphEngine rd wild) g m).2 = g) ∧
      NeoBackend.SourceInfo (graphEngine rd wild) (NeoBackend.MapCreate (graphEngine rd wild) g m).2 m2
        = ({ mapping := { m2 with Canonical := v, Object := m2.Object ++ "/" ++ v },
             value := v, code := StatusOK, err := none },
           (NeoBackend.MapCreate (graphEngine rd wild) g m).2) ∧
      NeoBackend.MapCreate (graphEngine rd wild) (NeoBackend.MapCreate (graphEngine rd wild) g m).2 m2 =
        (.returns { mapping := { m2 with Canonical := v },
                    code := if v = m2.Canonical then StatusCreated else StatusConflict,
                    err := none },
         (NeoBackend.MapCreate (graphEngine rd wild) g m).2) := by
  obtain ⟨x, xs, hx⟩ := upsert_cells_ne_nil g m.ObjectType m.SourceID m.Source m.Canonical
  have h1 := neo_MapCreate_engine rd wild g m hT hS hid hc x xs hx
  have h2 := upsert_again g hwf m.ObjectType m.SourceID m.Source m.Canonical m2.Canonical
  have hx2 : ((g.upsert m.ObjectType m.SourceID m.Source m.Canonical).2.upsert
      m2.ObjectType m2.SourceID m2.Source m2.Canonical).1 = x :: xs := by
    rw [hT2, hS2, hid2, h2, hx]
  have h3 := neo_MapCreate_engine rd wild
    (g.upsert m.ObjectType m.SourceID m.Source m.Canonical).2 m2
    (by rw [hT2]; exact hT) (by rw [hS2]; exact hS) (by rw [hid2]; exact hid) hc2 x xs hx2
  have hk := knows_after_upsert g hwf m.ObjectType m.SourceID m.Source m.Canonical
  rw [hx] at hk
  refine ⟨cellValue x, ?_, ?_, ?_, ?_, ?_⟩
  · rw [h1]
  · intro hnil
    simp only [Graph.upsert, hnil] at hx
    simp only [List.cons.injEq] at hx
    rw [← hx.1]
    rfl
  · intro o os hcons
    simp only [Graph.upsert, hcons, List.map_cons, List.cons.injEq] at hx
    refine ⟨by rw [← hx.1], ?_⟩
    rw [h1]
    simp only [Graph.upsert, hcons]
  · rw [h1]
    cases hk2 : (g.upsert m.ObjectType m.SourceID m.Source m.Canonical).2.knows
        m.ObjectType m.SourceID m.Source with
    | nil => rw [hk2] at hk; simp at hk
    | cons o os =>
      rw [hk2] at hk
      simp only [List.map_cons, List.cons.injEq] at hk
      have h4 := neo_SourceInfo_engine rd wild
        (g.upsert m.ObjectType m.SourceID m.Source m.Canonical).2 m2
        (by rw [hT2]; exact hT) (by rw [hS2]; exact hS) (by rw [hid2]; exact hid) o os
        (by rw [hT2, hS2, hid2]; exact hk2)
      rw [h4, hk.1]
  · rw [h1, h3]
    simp only [hT2, hS2, hid2, h2]

/-- Witness of C2: person c0 is stored for SF-1; a call proposing c1 and a second
call proposing c2 both return Conflict with c0. -/
theorem neo_MapCreate_twice_witness :
    graphC0.wf ∧
    ∃ v : String,
      (NeoBackend.MapCreate (graphEngine plainReader cypherRefused) graphC0 (sf1 "c1")).1 =
        .returns { mapping := { sf1 "c1" with Canonical := v },
                   code := if v = (sf1 "c1").Canonical then StatusCreated else StatusConflict,
                   err := none } ∧
      (graphC0.knows (sf1 "c1").ObjectType (sf1 "c1").SourceID (sf1 "c1").Source = [] →
        v = (sf1 "c1").Canonical) ∧
      (∀ o os, graphC0.knows (sf1 "c1").ObjectType (sf1 "c1").SourceID (sf1 "c1").Source
          = o :: os →
        v = cellValue o.canonical ∧
          (NeoBackend.MapCreate (graphEngine plainReader cypherRefused) graphC0 (sf1 "c1")).2 = graphC0) ∧
      NeoBackend.SourceInfo (graphEngine plainReader cypherRefused)
          (NeoBackend.MapCreate (graphEngine plainReader cypherRefused) graphC0 (sf1 "c1")).2 (sf1 "c2")
        = ({ mapping := { sf1 "c2" with Canonical := v, Object := (sf1 "c2").Object ++ "/" ++ v },
             value := v, code := StatusOK, err := none },
           (NeoBackend.MapCreate (graphEngine plainReader cypherRefused) graphC0 (sf1 "c1")).2) ∧
      NeoBackend.MapCreate (graphEngine plainReader cypherRefused)
          (NeoBackend.MapCreate (graphEngine plainReader cypherRefused) graphC0 (sf1 "c1")).2 (sf1 "c2") =
        (.returns { mapping := { sf1 "c2" with Canonical := v },
                    code := if v = (sf1 "c2").Canonical then StatusCreated else StatusConflict,
                    err := none },
         (NeoBackend.MapCreate (graphEngine plainReader cypherRefused) graphC0 (sf1 "c1")).2) :=
  ⟨by decide,
    neo_MapCreate_twice plainReader cypherRefused graphC0 (by decide) (sf1 "c1") (sf1 "c2")
      (by decide) (by decide) (by decide) (by decide) (by decide) rfl rfl rfl⟩
/-- C1, counterexample: a mapping with an empty canonical is created on a table
person without rows; the second MapCreate for the same (T, S, id) finds the row, reads
the empty id as no mapping and tries the insert again. With id as primary key the
insert is refused and the status is InternalServerError; with no key on the table the
row is stored a second time and the status is Created. In neither case is it
Conflict. -/
theorem sql_MapCreate_twice_empty_canonical :
    (SQLBackend.MapCreate (tableEngine plainReader sqlRefused) (personStore []) (sf1 "")).1 =
      { mapping := sf1 "", code := StatusCreated, err := none } ∧
    (SQLBackend.MapCreate (tableEngine plainReader sqlRefused)
        (SQLBackend.MapCreate (tableEngine plainReader sqlRefused) (personStore []) (sf1 "")).2
        (sf1 "")).1 =
      { mapping := sf1 "", code := StatusInternalServerError,
        err := some (.storage "Error 1062: Duplicate entry") } ∧
    (SQLBackend.MapCreate (tableEngine plainReader sqlRefused) (personStoreKeys [] []) (sf1 "")).1 =
      { mapping := sf1 "", code := StatusCreated, err := none } ∧
    (SQLBackend.MapCreate (tableEngine plainReader sqlRefused)
        (SQLBackend.MapCreate (tableEngine plainReader sqlRefused) (personStoreKeys [] []) (sf1 "")).2
        (sf1 "")).1 =
      { mapping := sf1 "", code := StatusCreated, err := none } :=
  ⟨rfl, rfl, rfl, rfl⟩

/-- C1, amended: on the tabular engine, for an object type, a source and a source id
that the engine reads unchanged from the statement text, a mapping with a non-empty
canonical, and a store in which no row already matching (T, S, id) has an empty id: if
SQLBackend.MapCreate returned Created, a second SQLBackend.MapCreate for the same
(T, S, id), with any proposed canonical, returns Conflict with a non-nil error and
leaves the store unchanged. -/
theorem sql_MapCreate_twice (rd : Reader) (wild : SQLDriver Store) (db : Store) (m m2 : Mapping)
    (hpT : rd.name m.ObjectType = true) (hpS : rd.name m.Source = true)
    (hpid : rd.value m.SourceID = true)
    (hc : m.Canonical ≠ "") (hfree : db.noEmptyMatch m)
    (hT : m2.ObjectType = m.ObjectType) (hS : m2.Source = m.Source)
    (hid : m2.SourceID = m.SourceID)
    (h : (SQLBackend.MapCreate (tableEngine rd wild) db m).1.code = StatusCreated) :
    SQLBackend.MapCreate (tableEngine rd wild)
        (SQLBackend.MapCreate (tableEngine rd wild) db m).2 m2 =
      ({ mapping := m2, code := StatusConflict,
         err := some (.New "The mapping already exists") },
       (SQLBackend.MapCreate (tableEngine rd wild) db m).2) := by
  have hsel := select_after_create rd wild db m hpT hpS hpid (Or.inr hfree) h
  rw [sql_MapCreate_engine rd wild (SQLBackend.MapCreate (tableEngine rd wild) db m).2 m2
    (by rw [hT]; exact hpT) (by rw [hS]; exact hpS) (by rw [hid]; exact hpid),
    hT, hS, hid, hsel]
  simp [hc]

/-- Witness of C1: c1 is created for SF-1 on a table without rows, and proposing c2
for SF-1 afterwards is refused. -/
theorem sql_MapCreate_twice_witness :
    ((sf1 "c1").Canonical ≠ "" ∧ (personStore []).noEmptyMatch (sf1 "c1") ∧
      (SQLBackend.MapCreate (tableEngine plainReader sqlRefused) (personStore []) (sf1 "c1")).1.code
        = StatusCreated) ∧
    SQLBackend.MapCreate (tableEngine plainReader sqlRefused)
        (SQLBackend.MapCreate (tableEngine plainReader sqlRefused) (personStore []) (sf1 "c1")).2
        (sf1 "c2") =
      ({ mapping := sf1 "c2", code := StatusConflict,
         err := some (.New "The mapping already exists") },
       (SQLBackend.MapCreate (tableEngine plainReader sqlRefused) (personStore []) (sf1 "c1")).2) :=
  ⟨⟨by decide, by decide, by decide⟩,
    sql_MapCreate_twice plainReader sqlRefused (personStore []) (sf1 "c1") (sf1 "c2")
      (by decide) (by decide) (by decide) (by decide) (by decide) rfl rfl rfl (by decide)⟩

/-- C3, counterexample: the table person holds a row with an empty id for SF-1;
MapCreate of canonical c1 for SF-1 returns Created, and SourceInfo for SF-1 then
returns the empty id of the older row with status OK, not c1. -/
theorem sql_SourceInfo_after_create_empty_id :
    (SQLBackend.MapCreate (tableEngine plainReader sqlRefused) (personStore [salesforceRow "" "SF-1"])
        (sf1 "c1")).1 =
      { mapping := sf1 "c1", code := StatusCreated, err := none } ∧
    (SQLBackend.SourceInfo (tableEngine plainReader sqlRefused)
        (SQLBackend.MapCreate (tableEngine plainReader sqlRefused)
          (personStore [salesforceRow "" "SF-1"]) (sf1 "c1")).2 (sf1 "c1")).1 =
      { mapping := sf1 "c1", value := "", code := StatusOK, err := none } :=
  ⟨rfl, rfl⟩

/-- C3, amended: on the tabular engine, for an object type, a source and a source id
that the engine reads unchanged from the statement text, and a mapping (T, S, id, c)
such that c is empty or no stored row already matching (T, S, id) has an empty id: if
SQLBackend.MapCreate returns Created for it, then SQLBackend.SourceInfo for (T, S, id)
on the resulting store returns exactly c with status OK and a nil error. -/
theorem sql_SourceInfo_after_create (rd : Reader) (wild : SQLDriver Store) (db : Store) (m m2 : Mapping)
    (hpT : rd.name m.ObjectType = true) (hpS : rd.name m.Source = true)
    (hpid : rd.value m.SourceID = true)
    (hfree : m.Canonical = "" ∨ db.noEmptyMatch m)
    (hT : m2.ObjectType = m.ObjectType) (hS : m2.Source = m.Source)
    (hid : m2.SourceID = m.SourceID)
    (h : (SQLBackend.MapCreate (tableEngine rd wild) db m).1.code = StatusCreated) :
    SQLBackend.SourceInfo (tableEngine rd wild)
        (SQLBackend.MapCreate (tableEngine rd wild) db m).2 m2 =
      ({ mapping := m2, value := m.Canonical, code := StatusOK, err := none },
       (SQLBackend.MapCreate (tableEngine rd wild) db m).2) := by
  have hsel := select_after_create rd wild db m hpT hpS hpid hfree h
  rw [sql_SourceInfo_engine rd wild (SQLBackend.MapCreate (tableEngine rd wild) db m).2 m2
    (by rw [hT]; exact hpT) (by rw [hS]; exact hpS) (by rw [hid]; exact hpid),
    hT, hS, hid, hsel]

/-- Witness of C3: c1 is created for SF-1 on a table without rows and resolved. -/
theorem sql_SourceInfo_after_create_witness :
    (((sf1 "c1").Canonical = "" ∨ (personStore []).noEmptyMatch (sf1 "c1")) ∧
      (SQLBackend.MapCreate (tableEngine plainReader sqlRefused) (personStore []) (sf1 "c1")).1.code
        = StatusCreated) ∧
    SQLBackend.SourceInfo (tableEngine plainReader sqlRefused)
        (SQLBackend.MapCreate (tableEngine plainReader sqlRefused) (personStore []) (sf1 "c1")).2
        (sf1 "") =
      ({ mapping := sf1 "", value := "c1", code := StatusOK, err := none },
       (SQLBackend.MapCreate (tableEngine plainReader sqlRefused) (personStore []) (sf1 "c1")).2) :=
  ⟨⟨by decide, by decide⟩,
    sql_SourceInfo_after_create plainReader sqlRefused (personStore []) (sf1 "c1") (sf1 "")
      (by decide) (by decide) (by decide) (by decide) rfl rfl rfl (by decide)⟩

/-- C5, counterexample: c1 is created for SF-1 in salesforce and the update attaches
SF-2, again in salesforce, to c1; the column is overwritten and CanonicalInfo lists
(salesforce, SF-2) only, omitting (salesforce, SF-1). -/
theorem sql_CanonicalInfo_same_source :
    (SQLBackend.MapCreate (tableEngine plainReader sqlRefused) (personStore []) (sf1 "c1")).1.code
      = StatusCreated ∧
    (SQLBackend.MapUpdate (tableEngine plainReader sqlRefused)
        (SQLBackend.MapCreate (tableEngine plainReader sqlRefused) (personStore []) (sf1 "c1")).2
        { sf1 "c1" with SourceID := "SF-2" }).1.code = StatusOK ∧
    (SQLBackend.CanonicalInfo (fun _ base => base) (tableEngine plainReader sqlRefused)
        (SQLBackend.MapUpdate (tableEngine plainReader sqlRefused)
          (SQLBackend.MapCreate (tableEngine plainReader sqlRefused) (personStore []) (sf1 "c1")).2
          { sf1 "c1" with SourceID := "SF-2" }).2
        (sf1 "c1") "").1.mappings.map (fun x => (x.Source, x.SourceID))
      = [("salesforce", "SF-2")] :=
  ⟨rfl, rfl, rfl⟩

/-- C5, amended: on the tabular engine, for a table whose id is a key, an object
type, a first source id and a canonical that the engine reads unchanged from the
statement text, as it does the known sources, two different sources S1, S2 of the
known-sources list and non-empty source ids id1, id2: after SQLBackend.MapCreate (T, S1, id1) returns Created with canonical c,
followed by a SQLBackend.MapUpdate that attaches (S2, id2) to c and returns OK,
SQLBackend.CanonicalInfo (T, c) returns status OK, a nil error, and mappings whose
(Source, SourceID) pairs are exactly (S1, id1) and (S2, id2), each once. -/
theorem sql_CanonicalInfo_after_update (ObjectURL : Mapping → String → String)
    (rd : Reader) (wild : SQLDriver Store) (db : Store) (m1 m2 mq : Mapping) (baseURL : String)
    (hpT : rd.name m1.ObjectType = true) (hpid : rd.value m1.SourceID = true)
    (hpc : rd.value m1.Canonical = true) (hsrc : ∀ s ∈ sources, rd.name s = true)
    (hkey : db.idIsKey m1.ObjectType)
    (hS1 : m1.Source ∈ sources) (hS2 : m2.Source ∈ sources) (hne : m1.Source ≠ m2.Source)
    (hid1 : m1.SourceID ≠ "") (hid2 : m2.SourceID ≠ "")
    (hT2 : m2.ObjectType = m1.ObjectType) (hc2 : m2.Canonical = m1.Canonical)
    (hTq : mq.ObjectType = m1.ObjectType) (hcq : mq.Canonical = m1.Canonical)
    (h1 : (SQLBackend.MapCreate (tableEngine rd wild) db m1).1.code = StatusCreated)
    (h2 : (SQLBackend.MapUpdate (tableEngine rd wild)
            (SQLBackend.MapCreate (tableEngine rd wild) db m1).2 m2).1.code = StatusOK) :
    ((SQLBackend.CanonicalInfo ObjectURL (tableEngine rd wild)
        (SQLBackend.MapUpdate (tableEngine rd wild)
          (SQLBackend.MapCreate (tableEngine rd wild) db m1).2 m2).2
        mq baseURL).1.mappings.map (fun x => (x.Source, x.SourceID))).Perm
      [(m1.Source, m1.SourceID), (m2.Source, m2.SourceID)] ∧
    (SQLBackend.CanonicalInfo ObjectURL (tableEngine rd wild)
        (SQLBackend.MapUpdate (tableEngine rd wild)
          (SQLBackend.MapCreate (tableEngine rd wild) db m1).2 m2).2
        mq baseURL).1.code = StatusOK ∧
    (SQLBackend.CanonicalInfo ObjectURL (tableEngine rd wild)
        (SQLBackend.MapUpdate (tableEngine rd wild)
          (SQLBackend.MapCreate (tableEngine rd wild) db m1).2 m2).2
        mq baseURL).1.err = none := by
  refine ⟨?_, rfl, rfl⟩
  rw [pairs_after_update ObjectURL rd wild db m1 m2 mq baseURL hpT hpid hpc hsrc hkey hS1 hS2 hT2
    hc2
    hTq hcq h1 h2]
  generalize m1.Source = S1, m1.SourceID = id1, m2.Source = S2, m2.SourceID = id2
    at hS1 hS2 hne hid1 hid2
  simp only [sources, List.mem_cons, List.mem_singleton, List.not_mem_nil, or_false]
    at hS1 hS2
  rcases hS1 with rfl | rfl | rfl | rfl <;> rcases hS2 with rfl | rfl | rfl | rfl <;>
    first
    | exact absurd rfl hne
    | (simp [List.filterMap, hid1, hid2]; done)
    | (simp [List.filterMap, hid1, hid2]; exact List.Perm.swap _ _ _)

/-- Witness of C5: c1 is created for SF-1 in salesforce and ZU-9 of zuora is
attached to it. -/
theorem sql_CanonicalInfo_after_update_witness :
    ((personStore []).idIsKey "person" ∧
      (SQLBackend.MapCreate (tableEngine plainReader sqlRefused) (personStore []) (sf1 "c1")).1.code
        = StatusCreated ∧
      (SQLBackend.MapUpdate (tableEngine plainReader sqlRefused)
        (SQLBackend.MapCreate (tableEngine plainReader sqlRefused) (personStore []) (sf1 "c1")).2
        (zu9 "c1")).1.code = StatusOK) ∧
    (((SQLBackend.CanonicalInfo (fun _ base => base) (tableEngine plainReader sqlRefused)
        (SQLBackend.MapUpdate (tableEngine plainReader sqlRefused)
          (SQLBackend.MapCreate (tableEngine plainReader sqlRefused) (personStore []) (sf1 "c1")).2
          (zu9 "c1")).2
        (sf1 "c1") "").1.mappings.map (fun x => (x.Source, x.SourceID))).Perm
      [("salesforce", "SF-1"), ("zuora", "ZU-9")] ∧
    (SQLBackend.CanonicalInfo (fun _ base => base) (tableEngine plainReader sqlRefused)
        (SQLBackend.MapUpdate (tableEngine plainReader sqlRefused)
          (SQLBackend.MapCreate (tableEngine plainReader sqlRefused) (personStore []) (sf1 "c1")).2
          (zu9 "c1")).2
        (sf1 "c1") "").1.code = StatusOK ∧
    (SQLBackend.CanonicalInfo (fun _ base => base) (tableEngine plainReader sqlRefused)
        (SQLBackend.MapUpdate (tableEngine plainReader sqlRefused)
          (SQLBackend.MapCreate (tableEngine plainReader sqlRefused) (personStore []) (sf1 "c1")).2
          (zu9 "c1")).2
        (sf1 "c1") "").1.err = none) :=
  ⟨⟨by decide, by decide, by decide⟩,
    sql_CanonicalInfo_after_update (fun _ base => base) plainReader sqlRefused (personStore [])
      (sf1 "c1") (zu9 "c1") (sf1 "c1") ""
      (by decide) (by decide) (by decide) (by decide) (by decide) (by decide) (by decide)
      (by decide) (by decide) (by decide) rfl rfl rfl rfl (by decide) (by decide)⟩

/-- C6, counterexample. (1) person, with id as its only key, holds c1 with SF-1 in
salesforce and c2 with no source; the invariant holds. MapUpdate attaching
(salesforce, SF-1) to c2 returns OK and leaves two canonical identifiers, c1 and c2,
for (salesforce, SF-1). (2) person holds a row with an empty id for SF-1; the
invariant holds. MapCreate of c1 for SF-1 returns Created and leaves two canonical
identifiers, the empty one and c1, for (salesforce, SF-1). -/
theorem sql_oneCanonical_lost :
    ((personStore [salesforceRow "c1" "SF-1", idRow "c2"]).oneCanonical "person" ∧
      (SQLBackend.MapUpdate (tableEngine plainReader sqlRefused)
        (personStore [salesforceRow "c1" "SF-1", idRow "c2"]) (sf1 "c2")).1.code = StatusOK ∧
      ¬ (SQLBackend.MapUpdate (tableEngine plainReader sqlRefused)
        (personStore [salesforceRow "c1" "SF-1", idRow "c2"])
        (sf1 "c2")).2.oneCanonical "person") ∧
    ((personStore [salesforceRow "" "SF-1"]).oneCanonical "person" ∧
      (SQLBackend.MapCreate (tableEngine plainReader sqlRefused)
        (personStore [salesforceRow "" "SF-1"]) (sf1 "c1")).1.code = StatusCreated ∧
      ¬ (SQLBackend.MapCreate (tableEngine plainReader sqlRefused)
        (personStore [salesforceRow "" "SF-1"]) (sf1 "c1")).2.oneCanonical "person") :=
  ⟨⟨by decide, by decide, by decide⟩, by decide, by decide, by decide⟩

/-- C6, amended: on the tabular engine, for an object type and a source that the
engine reads unchanged from the statement text, and a store in which the table of
object type T has at most one canonical identifier per (Source, SourceID) pair. For
a source id that is read unchanged, the store left by SQLBackend.MapCreate still
satisfies this in every case but one: the lookup reads the empty id of a stored row
for the pair and the insert of a non-empty canonical is accepted. For a canonical
that is read unchanged, the store left by SQLBackend.MapUpdate still
satisfies it in every case but one: the update of a source column is accepted and
changes the row with id Canonical while a row with another id already carries
SourceID in that column. In these two cases the invariant is lost. -/
theorem sql_oneCanonical_preserved (rd : Reader) (wild : SQLDriver Store) (db : Store) (m : Mapping)
    (T : String) (hinv : db.oneCanonical T)
    (hpT : rd.name m.ObjectType = true) (hpS : rd.name m.Source = true) :
    (rd.value m.SourceID = true →
      ((SQLBackend.MapCreate (tableEngine rd wild) db m).2.oneCanonical T ↔
        ¬ (T = m.ObjectType ∧ db.createSplits m))) ∧
    (rd.value m.Canonical = true →
      ((SQLBackend.MapUpdate (tableEngine rd wild) db m).2.oneCanonical T ↔
        ¬ (T = m.ObjectType ∧ db.updateSplits m))) :=
  ⟨fun hpid => sql_MapCreate_oneCanonical rd wild db m T hinv hpT hpS hpid,
   fun hpc => sql_MapUpdate_oneCanonical rd wild db m T hinv hpT hpS hpc⟩

/-- Witness of C6: person holds c1 with SF-1 in salesforce; creating c2 for ZU-9 in
zuora, and attaching ZU-9 of zuora to c1, both keep the invariant. And on a table
person whose salesforce column is a key as well, attaching SF-1, which c1 holds, to c2
is refused by the engine and the invariant is kept. -/
theorem sql_oneCanonical_preserved_witness :
    ((personStore [salesforceRow "c1" "SF-1"]).oneCanonical "person" ∧
      ¬ ("person" = (zu9 "c2").ObjectType ∧
          (personStore [salesforceRow "c1" "SF-1"]).createSplits (zu9 "c2")) ∧
      ¬ ("person" = (zu9 "c1").ObjectType ∧
          (personStore [salesforceRow "c1" "SF-1"]).updateSplits (zu9 "c1"))) ∧
    (SQLBackend.MapCreate (tableEngine plainReader sqlRefused) (personStore [salesforceRow "c1" "SF-1"])
        (zu9 "c2")).2.oneCanonical "person" ∧
    (SQLBackend.MapUpdate (tableEngine plainReader sqlRefused) (personStore [salesforceRow "c1" "SF-1"])
        (zu9 "c1")).2.oneCanonical "person" ∧
    (SQLBackend.MapUpdate (tableEngine plainReader sqlRefused)
        (personStoreKeys ["id", "salesforce"] [salesforceRow "c1" "SF-1", idRow "c2"])
        (sf1 "c2")).1.code = StatusInternalServerError ∧
    (SQLBackend.MapUpdate (tableEngine plainReader sqlRefused)
        (personStoreKeys ["id", "salesforce"] [salesforceRow "c1" "SF-1", idRow "c2"])
        (sf1 "c2")).2.oneCanonical "person" :=
  ⟨⟨by decide, by decide, by decide⟩,
    ((sql_oneCanonical_preserved plainReader sqlRefused (personStore [salesforceRow "c1" "SF-1"])
      (zu9 "c2") "person" (by decide) (by decide) (by decide)).1 (by decide)).mpr (by decide),
    ((sql_oneCanonical_preserved plainReader sqlRefused (personStore [salesforceRow "c1" "SF-1"])
      (zu9 "c1") "person" (by decide) (by decide) (by decide)).2 (by decide)).mpr (by decide),
    by decide,
    ((sql_oneCanonical_preserved plainReader sqlRefused
      (personStoreKeys ["id", "salesforce"] [salesforceRow "c1" "SF-1", idRow "c2"])
      (sf1 "c2") "person" (by decide) (by decide) (by decide)).2 (by decide)).mpr (by decide)⟩

end Gref
